import Mathlib

/-!
Verification of the VortexL2 port-forwarding control plane.

This file gives a shallow embedding of the forwarding-related parts of the
VortexL2 sources (config.py, haproxy_manager.py, socat_manager.py,
forward.py, forward_legacy.py) and proves or refutes the specification
claims about them.  External effects (the validator, systemctl
reload/restart, OS listening-socket probes, process launches) are modelled
by oracle records whose fields record the outcome each external call would
return; file-system contents touched by the code are threaded explicitly.
Ports are modelled as `Int`, matching Python's unbounded signed integers.
-/

namespace VortexL2

/-! ## config.py: GlobalConfig and TunnelConfig -/

namespace GlobalConfig

/-- Source `GlobalConfig.VALID_FORWARD_MODES = ["none", "haproxy", "socat"]`. -/
def VALID_FORWARD_MODES : List String := ["none", "haproxy", "socat"]

/-- Source `GlobalConfig.forward_mode` property getter: reads the stored
`forward_mode` key (absent key defaults to "none") and coerces any value
outside `VALID_FORWARD_MODES` back to "none". -/
def forward_mode (stored : Option String) : String :=
  if stored.getD "none" ∉ VALID_FORWARD_MODES then "none"
  else stored.getD "none"

/-- Source `GlobalConfig.forward_mode` property setter: raises `ValueError`
for a value outside `VALID_FORWARD_MODES`, otherwise stores the value. -/
def set_forward_mode (stored : Option String) (value : String) :
    Except String (Option String) :=
  if value ∉ VALID_FORWARD_MODES then
    Except.error ("Invalid forward mode: " ++ value ++
      ". Must be one of ['none', 'haproxy', 'socat']")
  else
    Except.ok (some value)

/-- Modelled from the spec for comparison only (refinement target, not
source code): the spec's ForwardingMode enum
`{Disabled, Relay, ProxyConfig, ProcessPerPort}`. -/
def spec_forward_mode_enum : List String :=
  ["Disabled", "Relay", "ProxyConfig", "ProcessPerPort"]

end GlobalConfig

namespace TunnelConfig

/-- Source `TunnelConfig.add_port`: append the port to the persisted list
unless it is already present. -/
def add_port (ports : List Int) (port : Int) : List Int :=
  if port ∉ ports then ports ++ [port] else ports

/-- Source `TunnelConfig.remove_port`: Python `list.remove` deletes the
first occurrence; a missing port leaves the list unchanged. -/
def remove_port (ports : List Int) (port : Int) : List Int :=
  if port ∈ ports then ports.erase port else ports

theorem add_port_of_mem {ports : List Int} {p : Int} (h : p ∈ ports) :
    add_port ports p = ports := by
  simp [add_port, h]

theorem remove_port_of_not_mem {ports : List Int} {p : Int} (h : p ∉ ports) :
    remove_port ports p = ports := by
  simp [remove_port, h]

theorem remove_port_add_port {ports : List Int} {p : Int} (h : p ∉ ports) :
    remove_port (add_port ports p) p = ports := by
  rw [add_port, if_pos h, remove_port, if_pos (by simp),
    List.erase_append_right _ h]
  simp

theorem add_port_remove_port_perm {ports : List Int} {p : Int}
    (hnd : ports.Nodup) (h : p ∈ ports) :
    (add_port (remove_port ports p) p).Perm ports := by
  have herase : p ∉ ports.erase p := hnd.not_mem_erase
  rw [remove_port, if_pos h, add_port, if_pos herase]
  exact List.Perm.trans List.perm_append_comm (List.perm_cons_erase h).symm

end TunnelConfig

/-! ## Claim C4: the forwarding-mode enum -/

/-- C4 counterexample: the claim says the persisted forwarding mode is
validated against a four-value enum, but the code's
`VALID_FORWARD_MODES` has exactly three members (there is no mode value
for the relay backend), and the natural fourth value "relay" is
rejected by the setter. -/
theorem forward_mode_enum_counterexample :
    GlobalConfig.VALID_FORWARD_MODES.length = 3 ∧
    ¬ GlobalConfig.VALID_FORWARD_MODES.length =
        GlobalConfig.spec_forward_mode_enum.length ∧
    (∀ c', GlobalConfig.set_forward_mode (some "none") "relay" ≠
        Except.ok c') := by
  refine ⟨rfl, by decide, ?_⟩
  intro c'
  simp [GlobalConfig.set_forward_mode, GlobalConfig.VALID_FORWARD_MODES]

/-- C4 amended: the persisted global forwarding mode is validated against
the three-value enum `["none", "haproxy", "socat"]` (no relay mode
exists): the setter succeeds exactly on members of that list, and the
getter always yields a member of that list. -/
theorem forward_mode_enum_amended (stored : Option String) (value : String) :
    (GlobalConfig.set_forward_mode stored value =
        Except.ok (some value) ↔ value ∈ GlobalConfig.VALID_FORWARD_MODES) ∧
    GlobalConfig.forward_mode stored ∈ GlobalConfig.VALID_FORWARD_MODES := by
  constructor
  · constructor
    · intro h
      by_contra hv
      simp [GlobalConfig.set_forward_mode, hv] at h
    · intro hv
      simp [GlobalConfig.set_forward_mode, hv]
  · unfold GlobalConfig.forward_mode
    split
    · decide
    · rename_i hcond
      exact not_not.mp hcond

/-! ## Claim C10: the persisted port-list mutators -/

/-- C10: the store's mutators keep the per-tunnel forwarded-port list
duplicate-free and are inert when inapplicable: `add_port` on a list
already holding the port is the identity, `remove_port` on a list not
holding the port is the identity, and adding then removing a fresh port
restores the original list exactly. -/
theorem add_remove_port_algebra (ports : List Int) (p : Int) :
    (p ∈ ports → TunnelConfig.add_port ports p = ports) ∧
    (p ∉ ports → TunnelConfig.remove_port ports p = ports) ∧
    (p ∉ ports →
      TunnelConfig.remove_port (TunnelConfig.add_port ports p) p = ports) :=
  ⟨fun h => TunnelConfig.add_port_of_mem h,
   fun h => TunnelConfig.remove_port_of_not_mem h,
   fun h => TunnelConfig.remove_port_add_port h⟩

/-- C10 witness: the three mutator laws evaluated on concrete lists. -/
theorem add_remove_port_algebra_witness :
    TunnelConfig.add_port [1, 2] 1 = [1, 2] ∧
    TunnelConfig.remove_port [1, 2] 3 = [1, 2] ∧
    TunnelConfig.remove_port (TunnelConfig.add_port [1, 2] 3) 3 = [1, 2] :=
  ⟨(add_remove_port_algebra [1, 2] 1).1 (by decide),
   (add_remove_port_algebra [1, 2] 3).2.1 (by decide),
   (add_remove_port_algebra [1, 2] 3).2.2 (by decide)⟩

/-- The slice of a tunnel's persisted YAML config that the forwarding
backends read: `name`, `remote_forward_ip` (the empty string models a
missing / falsy value) and `forwarded_ports`. -/
structure Tunnel where
  name : String
  remote_forward_ip : String
  forwarded_ports : List Int
deriving DecidableEq

/-! ## haproxy_manager.py: config synthesis and the commit protocol -/

namespace HAProxyManager

/-- The fixed global/defaults/stats prelude of the generated HAProxy
configuration (source lines 103-134). -/
def haproxy_header : String :=
  "# HAProxy configuration for VortexL2\n# Auto-generated - do not edit manually\n\n" ++
  "global\n    maxconn 10000\n    log stdout local0\n    log stdout local1 notice\n" ++
  "    chroot /var/lib/haproxy\n    stats socket /var/run/haproxy.sock mode 660 level admin\n" ++
  "    stats timeout 30s\n    daemon\n\ndefaults\n    log     global\n    mode    tcp\n" ++
  "    option  tcplog\n    option  dontlognull\n    option  redispatch\n    retries 3\n" ++
  "    timeout connect 5000\n    timeout client  50000\n    timeout server  50000\n\n" ++
  "# Stats page - always present so HAProxy has at least one frontend\n" ++
  "frontend stats_frontend\n    mode http\n    bind 127.0.0.1:9999\n    stats enable\n" ++
  "    stats uri /stats\n    stats refresh 10s\n\n"

/-- The per-port backend section emitted by `_generate_haproxy_config`. -/
def backend_block (tunnel_name remote_ip : String) (port : Int) : String :=
  "backend " ++ tunnel_name ++ "_backend_" ++ toString port ++
  "\n    balance roundrobin\n    mode tcp\n    server remote_host_" ++ toString port ++
  " " ++ remote_ip ++ ":" ++ toString port ++
  " check\n    default-server inter 10s fall 3 rise 2\n\n"

/-- The per-port frontend section emitted by `_generate_haproxy_config`. -/
def frontend_block (tunnel_name : String) (port : Int) : String :=
  "frontend " ++ tunnel_name ++ "_port_" ++ toString port ++
  "\n    mode tcp\n    bind 0.0.0.0:" ++ toString port ++
  "\n    default_backend " ++ tunnel_name ++ "_backend_" ++ toString port ++ "\n\n"

/-- One frontend/backend pair of the generated configuration, in the order
the generator emits them. -/
structure ConfigEntry where
  tunnel : String
  ip : String
  port : Int
deriving DecidableEq

/-- The pairs a single tunnel contributes: none when its
`remote_forward_ip` is falsy or its `forwarded_ports` list is empty
(the two `continue` guards of the source loop), else one per port. -/
def tunnel_entries (t : Tunnel) : List ConfigEntry :=
  if t.remote_forward_ip = "" then []
  else if t.forwarded_ports = [] then []
  else t.forwarded_ports.map (fun p => ⟨t.name, t.remote_forward_ip, p⟩)

/-- The text a single entry contributes: backend section, then frontend
section, exactly as the source appends them. -/
def entry_text (e : ConfigEntry) : String :=
  backend_block e.tunnel e.ip e.port ++ frontend_block e.tunnel e.port

/-- All frontend/backend pairs of the generated configuration, in emission
order over the tunnel list. -/
def config_entries (ts : List Tunnel) : List ConfigEntry :=
  ts.flatMap tunnel_entries

/-- Source `HAProxyManager._generate_haproxy_config`: the fixed header
followed by the backend+frontend sections of every (tunnel, port) pair,
rebuilt in full from the tunnel store on every call. -/
def generate_haproxy_config (ts : List Tunnel) : String :=
  haproxy_header ++ String.join ((config_entries ts).map entry_text)

/-- The two configuration files `_write_config_file` touches:
`haproxy.cfg` (live) and `haproxy.cfg.bak` (backup); `none` models a file
that does not exist. -/
structure FS where
  live : Option String
  backup : Option String
deriving DecidableEq

/-- Outcomes of the external-world calls a commit makes: the validator
verdict per candidate content, the systemctl reload/restart verdicts, and
the OS listening-socket probe with its best-effort process resolution. -/
structure Env where
  validator_ok : String → Bool
  reload_ok : Bool
  restart_ok : Bool
  listening : Int → Bool
  port_process : Int → Option String

/-- Source `HAProxyManager._write_config_file`: back up a pre-existing
live config once (only when no backup exists yet), write the candidate to
a temporary file, run the validator on the temporary file; on failure
delete the temporary file and leave the live file untouched, on success
atomically replace the live file. Returns the new file-system state and
the success flag. -/
def write_config_file (env : Env) (fs : FS) (content : String) : FS × Bool :=
  let fs1 := if fs.live.isSome && fs.backup.isNone then
    { fs with backup := fs.live } else fs
  if env.validator_ok content then ({ fs1 with live := some content }, true)
  else (fs1, false)

/-- Source `HAProxyManager._reload_haproxy`: `systemctl reload haproxy`,
falling back to `systemctl restart haproxy` when the reload fails. -/
def reload_haproxy (env : Env) : Bool :=
  env.reload_ok || env.restart_ok

/-- The manager's view of the world: the tunnel store with the managed
tunnel (`self.config`) singled out in place between the tunnels that sort
before and after it, plus the configuration files. -/
structure St where
  pre : List Tunnel
  cfg : Tunnel
  post : List Tunnel
  fs : FS
deriving DecidableEq

/-- The tunnel list `ConfigManager().get_all_tunnels()` returns. -/
def all_tunnels (st : St) : List Tunnel :=
  st.pre ++ [st.cfg] ++ st.post

/-- Helper for stating theorems: the candidate configuration
`create_forward` generates after persisting the new port. -/
def create_candidate (st : St) (port : Int) : String :=
  generate_haproxy_config (all_tunnels
    { st with cfg := { st.cfg with
        forwarded_ports := TunnelConfig.add_port st.cfg.forwarded_ports port } })

/-- Source `HAProxyManager.create_forward`: reject an already-forwarded
port; reject a port the OS probe reports as bound (with best-effort
process diagnostics); else persist the port, regenerate and commit the
config, rolling the port back out of the store when the commit or the
reload-or-restart fails. -/
def create_forward (env : Env) (st : St) (port : Int) : St × Bool × String :=
  if port ∈ st.cfg.forwarded_ports then
    (st, false, "Port " ++ toString port ++ " already in forwarded list")
  else if env.listening port then
    match env.port_process port with
    | some info =>
        (st, false, "Port " ++ toString port ++ " is already in use by: " ++ info)
    | none =>
        (st, false, "Port " ++ toString port ++ " is already in use by another process")
  else
    let st1 : St := { st with cfg := { st.cfg with
      forwarded_ports := TunnelConfig.add_port st.cfg.forwarded_ports port } }
    let wr := write_config_file env st1.fs (generate_haproxy_config (all_tunnels st1))
    if !wr.2 then
      ({ st1 with fs := wr.1, cfg := { st1.cfg with
          forwarded_ports := TunnelConfig.remove_port st1.cfg.forwarded_ports port } },
       false, "Failed to update HAProxy config for port " ++ toString port)
    else if !(reload_haproxy env) then
      ({ st1 with fs := wr.1, cfg := { st1.cfg with
          forwarded_ports := TunnelConfig.remove_port st1.cfg.forwarded_ports port } },
       false, "Failed to reload HAProxy for port " ++ toString port)
    else
      ({ st1 with fs := wr.1 }, true,
       "Port forward for " ++ toString port ++ " created (-> " ++
         st.cfg.remote_forward_ip ++ ":" ++ toString port ++ ")")

/-- Source `HAProxyManager.remove_forward`: reject a port that is not
forwarded; else remove it from the store, regenerate and commit, adding
the port back when the commit or the reload-or-restart fails. -/
def remove_forward (env : Env) (st : St) (port : Int) : St × Bool × String :=
  if port ∉ st.cfg.forwarded_ports then
    (st, false, "Port " ++ toString port ++ " not found")
  else
    let st1 : St := { st with cfg := { st.cfg with
      forwarded_ports := TunnelConfig.remove_port st.cfg.forwarded_ports port } }
    let wr := write_config_file env st1.fs (generate_haproxy_config (all_tunnels st1))
    if !wr.2 then
      ({ st1 with fs := wr.1, cfg := { st1.cfg with
          forwarded_ports := TunnelConfig.add_port st1.cfg.forwarded_ports port } },
       false, "Failed to update HAProxy config for port " ++ toString port)
    else if !(reload_haproxy env) then
      ({ st1 with fs := wr.1, cfg := { st1.cfg with
          forwarded_ports := TunnelConfig.add_port st1.cfg.forwarded_ports port } },
       false, "Failed to reload HAProxy for port " ++ toString port)
    else
      ({ st1 with fs := wr.1 }, true,
       "Port forward for " ++ toString port ++ " removed")

theorem write_config_file_snd (env : Env) (fs : FS) (c : String) :
    (write_config_file env fs c).2 = env.validator_ok c := by
  unfold write_config_file
  by_cases h : env.validator_ok c <;> simp [h]

theorem write_config_file_live_of_fail (env : Env) (fs : FS) (c : String)
    (h : env.validator_ok c = false) :
    (write_config_file env fs c).1.live = fs.live := by
  unfold write_config_file
  by_cases hb : fs.live.isSome && fs.backup.isNone <;> simp [h, hb]

theorem write_config_file_live_of_ok (env : Env) (fs : FS) (c : String)
    (h : env.validator_ok c = true) :
    (write_config_file env fs c).1.live = some c := by
  unfold write_config_file
  by_cases hb : fs.live.isSome && fs.backup.isNone <;> simp [h, hb]

theorem write_config_file_backup_some (env : Env) (fs : FS) (c : String)
    (b : String) (h : fs.backup = some b) :
    (write_config_file env fs c).1.backup = some b := by
  unfold write_config_file
  have : (fs.live.isSome && fs.backup.isNone) = false := by simp [h]
  by_cases hv : env.validator_ok c <;> simp [this, hv, h]

theorem write_config_file_backup_capture (env : Env) (fs : FS) (c : String)
    (l : String) (hl : fs.live = some l) (hb : fs.backup = none) :
    (write_config_file env fs c).1.backup = some l := by
  unfold write_config_file
  have : (fs.live.isSome && fs.backup.isNone) = true := by simp [hl, hb]
  by_cases hv : env.validator_ok c <;> simp [this, hv, hl, hb]

/-- Decidable test for "this entry is the frontend/backend pair of
tunnel `tname` and port `p`". -/
def entry_matches (tname : String) (p : Int) (e : ConfigEntry) : Bool :=
  e.tunnel == tname && e.port == p

theorem mem_tunnel_entries {t : Tunnel} {e : ConfigEntry}
    (he : e ∈ tunnel_entries t) :
    e.tunnel = t.name ∧ e.ip = t.remote_forward_ip ∧
      e.port ∈ t.forwarded_ports := by
  unfold tunnel_entries at he
  split at he
  · simp at he
  · split at he
    · simp at he
    · obtain ⟨p, hp, rfl⟩ := List.mem_map.mp he
      exact ⟨rfl, rfl, hp⟩

theorem countP_tunnel_entries_ne {t : Tunnel} {tname : String} {p : Int}
    (h : t.name ≠ tname) :
    (tunnel_entries t).countP (entry_matches tname p) = 0 := by
  rw [List.countP_eq_zero]
  intro e he
  have h1 := (mem_tunnel_entries he).1
  simp [entry_matches, h1, h]

theorem countP_tunnel_entries_self {t : Tunnel} {p : Int}
    (hip : t.remote_forward_ip ≠ "") (hnd : t.forwarded_ports.Nodup)
    (hp : p ∈ t.forwarded_ports) :
    (tunnel_entries t).countP (entry_matches t.name p) = 1 := by
  have hne : t.forwarded_ports ≠ [] := by
    intro h
    rw [h] at hp
    simp at hp
  rw [tunnel_entries, if_neg hip, if_neg hne, List.countP_map]
  have hcomp : (entry_matches t.name p ∘
      fun q => (⟨t.name, t.remote_forward_ip, q⟩ : ConfigEntry)) =
      fun q => q == p := by
    funext q
    simp [entry_matches, Function.comp]
  rw [hcomp, ← List.count_eq_countP]
  exact List.count_eq_one_of_mem hnd hp

theorem countP_config_entries_zero {ts : List Tunnel} {tname : String}
    {p : Int} (h : ∀ t ∈ ts, t.name ≠ tname) :
    (config_entries ts).countP (entry_matches tname p) = 0 := by
  induction ts with
  | nil => rfl
  | cons u ts ih =>
    rw [config_entries, List.flatMap_cons, List.countP_append]
    rw [config_entries] at ih
    rw [countP_tunnel_entries_ne (h u (by simp)),
      ih (fun t ht => h t (by simp [ht]))]

theorem countP_config_entries_one {ts : List Tunnel} {t : Tunnel} {p : Int}
    (hnames : (ts.map Tunnel.name).Nodup) (hmem : t ∈ ts)
    (hip : t.remote_forward_ip ≠ "") (hnd : t.forwarded_ports.Nodup)
    (hp : p ∈ t.forwarded_ports) :
    (config_entries ts).countP (entry_matches t.name p) = 1 := by
  induction ts with
  | nil => simp at hmem
  | cons u ts ih =>
    rw [List.map_cons, List.nodup_cons] at hnames
    rw [config_entries, List.flatMap_cons, List.countP_append]
    rcases List.mem_cons.mp hmem with rfl | hmem'
    · have hzero : ∀ t' ∈ ts, t'.name ≠ t.name := by
        intro t' ht' heq
        exact hnames.1 (heq ▸ List.mem_map_of_mem Tunnel.name ht')
      have h0 := countP_config_entries_zero (p := p) hzero
      rw [config_entries] at h0
      rw [countP_tunnel_entries_self hip hnd hp, h0]
    · have hune : u.name ≠ t.name := by
        intro heq
        exact hnames.1 (heq ▸ List.mem_map_of_mem Tunnel.name hmem')
      rw [countP_tunnel_entries_ne hune]
      rw [config_entries] at ih
      rw [ih hnames.2 hmem']

/-- Helper for stating theorems: the candidate configuration
`remove_forward` generates after deleting the port. -/
def remove_candidate (st : St) (port : Int) : String :=
  generate_haproxy_config (all_tunnels
    { st with cfg := { st.cfg with
        forwarded_ports := TunnelConfig.remove_port st.cfg.forwarded_ports port } })

theorem create_forward_fail_ports (env : Env) (st : St) (port : Int)
    (h : (create_forward env st port).2.1 = false) :
    (create_forward env st port).1.cfg.forwarded_ports =
      st.cfg.forwarded_ports ∧
    (create_forward env st port).1.pre = st.pre ∧
    (create_forward env st port).1.post = st.post := by
  unfold create_forward at h ⊢
  by_cases h1 : port ∈ st.cfg.forwarded_ports
  · simp [h1]
  · by_cases h2 : env.listening port
    · cases hpp : env.port_process port <;> simp [h1, h2, hpp]
    · simp only [h1, h2, if_false, if_neg, ite_false, Bool.false_eq_true] at h ⊢
      by_cases hv : env.validator_ok (create_candidate st port)
      · rw [create_candidate] at hv
        by_cases hr : reload_haproxy env
        · simp [write_config_file_snd, hv, hr] at h
        · simp [write_config_file_snd, hv, hr,
            TunnelConfig.remove_port_add_port h1]
      · rw [create_candidate] at hv
        simp [write_config_file_snd, hv, Bool.false_eq_true,
          TunnelConfig.remove_port_add_port h1]

theorem create_forward_validator_fail (env : Env) (st : St) (port : Int)
    (hv : env.validator_ok (create_candidate st port) = false) :
    (create_forward env st port).1.fs.live = st.fs.live ∧
    (create_forward env st port).2.1 = false := by
  rw [create_candidate] at hv
  unfold create_forward
  by_cases h1 : port ∈ st.cfg.forwarded_ports
  · simp [h1]
  · by_cases h2 : env.listening port
    · cases hpp : env.port_process port <;> simp [h1, h2, hpp]
    · simp [h1, h2, write_config_file_snd, hv,
        write_config_file_live_of_fail _ _ _ hv]

theorem create_forward_success (env : Env) (st : St) (port : Int)
    (h : (create_forward env st port).2.1 = true) :
    (create_forward env st port).1.fs.live =
      some (create_candidate st port) ∧
    (env.reload_ok || env.restart_ok) = true := by
  unfold create_forward at h ⊢
  by_cases h1 : port ∈ st.cfg.forwarded_ports
  · simp [h1] at h
  · by_cases h2 : env.listening port
    · cases hpp : env.port_process port <;> simp [h1, h2, hpp] at h
    · by_cases hv : env.validator_ok (create_candidate st port)
      · rw [create_candidate] at hv
        by_cases hr : reload_haproxy env
        · rw [reload_haproxy] at hr
          simp [h1, h2, write_config_file_snd, hv, hr, reload_haproxy,
            write_config_file_live_of_ok _ _ _ hv, create_candidate]
        · rw [reload_haproxy] at hr
          simp [h1, h2, write_config_file_snd, hv, hr, reload_haproxy] at h
      · rw [create_candidate] at hv
        simp [h1, h2, write_config_file_snd, hv] at h

theorem create_forward_reload_fail (env : Env) (st : St) (port : Int)
    (hr : env.reload_ok = false) (hs : env.restart_ok = false) :
    (create_forward env st port).2.1 = false := by
  unfold create_forward
  by_cases h1 : port ∈ st.cfg.forwarded_ports
  · simp [h1]
  · by_cases h2 : env.listening port
    · cases hpp : env.port_process port <;> simp [h1, h2, hpp]
    · by_cases hv : env.validator_ok (create_candidate st port)
      · rw [create_candidate] at hv
        simp [h1, h2, write_config_file_snd, hv, reload_haproxy, hr, hs]
      · rw [create_candidate] at hv
        simp [h1, h2, write_config_file_snd, hv]

theorem remove_forward_fail_ports (env : Env) (st : St) (port : Int)
    (hnd : st.cfg.forwarded_ports.Nodup)
    (h : (remove_forward env st port).2.1 = false) :
    ((remove_forward env st port).1.cfg.forwarded_ports).Perm
      st.cfg.forwarded_ports ∧
    (remove_forward env st port).1.pre = st.pre ∧
    (remove_forward env st port).1.post = st.post := by
  unfold remove_forward at h ⊢
  by_cases h1 : port ∈ st.cfg.forwarded_ports
  · by_cases hv : env.validator_ok (remove_candidate st port)
    · rw [remove_candidate] at hv
      by_cases hr : reload_haproxy env
      · simp [h1, write_config_file_snd, hv, hr] at h
      · simp [h1, write_config_file_snd, hv, hr,
          TunnelConfig.add_port_remove_port_perm hnd h1]
    · rw [remove_candidate] at hv
      simp [h1, write_config_file_snd, hv,
        TunnelConfig.add_port_remove_port_perm hnd h1]
  · simp [h1]

theorem remove_forward_validator_fail (env : Env) (st : St) (port : Int)
    (hv : env.validator_ok (remove_candidate st port) = false) :
    (remove_forward env st port).1.fs.live = st.fs.live ∧
    (remove_forward env st port).2.1 = false := by
  rw [remove_candidate] at hv
  unfold remove_forward
  by_cases h1 : port ∈ st.cfg.forwarded_ports
  · simp [h1, write_config_file_snd, hv,
      write_config_file_live_of_fail _ _ _ hv]
  · simp [h1]

theorem remove_forward_success (env : Env) (st : St) (port : Int)
    (h : (remove_forward env st port).2.1 = true) :
    (remove_forward env st port).1.fs.live =
      some (remove_candidate st port) ∧
    (env.reload_ok || env.restart_ok) = true := by
  unfold remove_forward at h ⊢
  by_cases h1 : port ∈ st.cfg.forwarded_ports
  · by_cases hv : env.validator_ok (remove_candidate st port)
    · rw [remove_candidate] at hv
      by_cases hr : reload_haproxy env
      · rw [reload_haproxy] at hr
        simp [h1, write_config_file_snd, hv, hr, reload_haproxy,
          write_config_file_live_of_ok _ _ _ hv, remove_candidate]
      · rw [reload_haproxy] at hr
        simp [h1, write_config_file_snd, hv, hr, reload_haproxy] at h
    · rw [remove_candidate] at hv
      simp [h1, write_config_file_snd, hv] at h
  · simp [h1] at h

theorem remove_forward_reload_fail (env : Env) (st : St) (port : Int)
    (hr : env.reload_ok = false) (hs : env.restart_ok = false) :
    (remove_forward env st port).2.1 = false := by
  unfold remove_forward
  by_cases h1 : port ∈ st.cfg.forwarded_ports
  · by_cases hv : env.validator_ok (remove_candidate st port)
    · rw [remove_candidate] at hv
      simp [h1, write_config_file_snd, hv, reload_haproxy, hr, hs]
    · rw [remove_candidate] at hv
      simp [h1, write_config_file_snd, hv]
  · simp [h1]

/-- A trace of successive `_write_config_file` calls, modelling any
sequence of Proxy-Config commits against one file system. -/
def write_trace (env : Env) (fs : FS) (cs : List String) : FS :=
  cs.foldl (fun f c => (write_config_file env f c).1) fs

theorem write_trace_backup_some (env : Env) (cs : List String) :
    ∀ (fs : FS) (b : String), fs.backup = some b →
      (write_trace env fs cs).backup = some b := by
  induction cs with
  | nil =>
    intro fs b hb
    exact hb
  | cons c cs ih =>
    intro fs b hb
    rw [write_trace, List.foldl_cons]
    exact ih (write_config_file env fs c).1 b
      (write_config_file_backup_some env fs c b hb)

end HAProxyManager

/-! ## Claim C1: the Proxy-Config commit/rollback protocol -/

/-- C1: for the Proxy-Config backend's CreateForward and RemoveForward, a
validator failure on the candidate configuration leaves the live config
file untouched and the call fails; on success the candidate has
atomically replaced the live file and the graceful reload or the
fallback restart succeeded; when both the reload and the restart fail
the call fails; and every failing call leaves the persisted rule set as
it was before the call (exactly for CreateForward; for RemoveForward the
rollback re-appends the removed port, restoring the set up to order). -/
theorem haproxy_commit_rollback (env : HAProxyManager.Env)
    (st : HAProxyManager.St) (port : Int)
    (hnd : st.cfg.forwarded_ports.Nodup) :
    ((HAProxyManager.create_forward env st port).2.1 = false →
      (HAProxyManager.create_forward env st port).1.cfg.forwarded_ports =
        st.cfg.forwarded_ports) ∧
    (env.validator_ok (HAProxyManager.create_candidate st port) = false →
      (HAProxyManager.create_forward env st port).1.fs.live = st.fs.live ∧
      (HAProxyManager.create_forward env st port).2.1 = false) ∧
    ((HAProxyManager.create_forward env st port).2.1 = true →
      (HAProxyManager.create_forward env st port).1.fs.live =
        some (HAProxyManager.create_candidate st port) ∧
      (env.reload_ok || env.restart_ok) = true) ∧
    (env.reload_ok = false → env.restart_ok = false →
      (HAProxyManager.create_forward env st port).2.1 = false) ∧
    ((HAProxyManager.remove_forward env st port).2.1 = false →
      ((HAProxyManager.remove_forward env st port).1.cfg.forwarded_ports).Perm
        st.cfg.forwarded_ports) ∧
    (env.validator_ok (HAProxyManager.remove_candidate st port) = false →
      (HAProxyManager.remove_forward env st port).1.fs.live = st.fs.live ∧
      (HAProxyManager.remove_forward env st port).2.1 = false) ∧
    ((HAProxyManager.remove_forward env st port).2.1 = true →
      (HAProxyManager.remove_forward env st port).1.fs.live =
        some (HAProxyManager.remove_candidate st port) ∧
      (env.reload_ok || env.restart_ok) = true) ∧
    (env.reload_ok = false → env.restart_ok = false →
      (HAProxyManager.remove_forward env st port).2.1 = false) :=
  ⟨fun h => (HAProxyManager.create_forward_fail_ports env st port h).1,
   fun hv => HAProxyManager.create_forward_validator_fail env st port hv,
   fun h => HAProxyManager.create_forward_success env st port h,
   fun hr hs => HAProxyManager.create_forward_reload_fail env st port hr hs,
   fun h => (HAProxyManager.remove_forward_fail_ports env st port hnd h).1,
   fun hv => HAProxyManager.remove_forward_validator_fail env st port hv,
   fun h => HAProxyManager.remove_forward_success env st port h,
   fun hr hs => HAProxyManager.remove_forward_reload_fail env st port hr hs⟩

/-- A concrete environment whose validator always rejects and whose
reload and restart always fail, for evaluating the rollback protocol. -/
def c1_env : HAProxyManager.Env :=
  { validator_ok := fun _ => false
    reload_ok := false
    restart_ok := false
    listening := fun _ => false
    port_process := fun _ => none }

/-- A concrete manager state: one tunnel already forwarding port 81, a
pre-existing live config and no backup. -/
def c1_st : HAProxyManager.St :=
  { pre := []
    cfg := { name := "t1", remote_forward_ip := "10.0.0.2",
             forwarded_ports := [81] }
    post := []
    fs := { live := some "orig", backup := none } }

/-- C1 witness: with a rejecting validator, CreateForward 80 fails, the
live config file keeps its prior content and the rule list is exactly
the one before the call. -/
theorem haproxy_commit_rollback_witness :
    (HAProxyManager.create_forward c1_env c1_st 80).1.fs.live = some "orig" ∧
    (HAProxyManager.create_forward c1_env c1_st 80).2.1 = false ∧
    (HAProxyManager.create_forward c1_env c1_st 80).1.cfg.forwarded_ports =
      [81] := by
  have h := haproxy_commit_rollback c1_env c1_st 80 (by decide)
  have h2 := h.2.1 rfl
  exact ⟨h2.1, h2.2, h.1 h2.2⟩

/-! ## Claim C3: deterministic full-rebuild config synthesis -/

/-- C3: the generated configuration is a deterministic full rebuild from
the rule store: under distinct tunnel names and duplicate-free port
lists, every (tunnel, port) pair with a remote forward IP and a
forwarded port yields exactly one frontend/backend pair; that pair binds
0.0.0.0:port, forwards to remoteIp:port with health checking at a 10s
interval, 3 consecutive failures to mark down and 2 successes to mark
up; tunnels without a remote IP or without ports contribute no entries;
and the whole config is the fixed header plus the entries' text. -/
theorem haproxy_config_synthesis (ts : List Tunnel)
    (t : Tunnel) (p : Int)
    (hnames : (ts.map Tunnel.name).Nodup) (hmem : t ∈ ts)
    (hip : t.remote_forward_ip ≠ "") (hnd : t.forwarded_ports.Nodup)
    (hp : p ∈ t.forwarded_ports) :
    (HAProxyManager.config_entries ts).countP
      (HAProxyManager.entry_matches t.name p) = 1 ∧
    (∀ e ∈ HAProxyManager.config_entries ts,
      e.tunnel = t.name → e.ip = t.remote_forward_ip) ∧
    (∀ u : Tunnel,
      u.remote_forward_ip = "" ∨ u.forwarded_ports = [] →
      HAProxyManager.tunnel_entries u = []) ∧
    (∀ e : HAProxyManager.ConfigEntry, ∃ pre suf,
      HAProxyManager.entry_text e =
        pre ++ ("bind 0.0.0.0:" ++ toString e.port) ++ suf) ∧
    (∀ e : HAProxyManager.ConfigEntry, ∃ pre suf,
      HAProxyManager.entry_text e =
        pre ++ (e.ip ++ ":" ++ toString e.port ++ " check") ++ suf) ∧
    (∀ e : HAProxyManager.ConfigEntry, ∃ pre suf,
      HAProxyManager.entry_text e =
        pre ++ "default-server inter 10s fall 3 rise 2" ++ suf) ∧
    HAProxyManager.generate_haproxy_config ts =
      HAProxyManager.haproxy_header ++
        String.join ((HAProxyManager.config_entries ts).map
          HAProxyManager.entry_text) := by
  refine ⟨HAProxyManager.countP_config_entries_one hnames hmem hip hnd hp,
    ?_, ?_, ?_, ?_, ?_, rfl⟩
  · intro e he hname
    rw [HAProxyManager.config_entries] at he
    obtain ⟨u, hu, heu⟩ := List.mem_flatMap.mp he
    obtain ⟨h1, h2, _⟩ := HAProxyManager.mem_tunnel_entries heu
    have hut : u = t :=
      List.inj_on_of_nodup_map hnames hu hmem (by rw [← h1, hname])
    rw [h2, hut]
  · intro u hu
    rcases hu with h | h <;> simp [HAProxyManager.tunnel_entries, h]
  · intro e
    refine ⟨HAProxyManager.backend_block e.tunnel e.ip e.port ++
      ("frontend " ++ e.tunnel ++ "_port_" ++ toString e.port ++
        "\n    mode tcp\n    "),
      "\n    default_backend " ++ e.tunnel ++ "_backend_" ++
        toString e.port ++ "\n\n", ?_⟩
    have hsplit : "\n    mode tcp\n    bind 0.0.0.0:" =
        "\n    mode tcp\n    " ++ "bind 0.0.0.0:" := rfl
    rw [HAProxyManager.entry_text, HAProxyManager.frontend_block, hsplit]
    simp only [String.append_assoc]
  · intro e
    refine ⟨"backend " ++ e.tunnel ++ "_backend_" ++ toString e.port ++
      "\n    balance roundrobin\n    mode tcp\n    server remote_host_" ++
      toString e.port ++ " ",
      "\n    default-server inter 10s fall 3 rise 2\n\n" ++
        HAProxyManager.frontend_block e.tunnel e.port, ?_⟩
    have hsplit : " check\n    default-server inter 10s fall 3 rise 2\n\n" =
        " check" ++ "\n    default-server inter 10s fall 3 rise 2\n\n" := rfl
    rw [HAProxyManager.entry_text, HAProxyManager.backend_block, hsplit]
    simp only [String.append_assoc]
  · intro e
    refine ⟨"backend " ++ e.tunnel ++ "_backend_" ++ toString e.port ++
      "\n    balance roundrobin\n    mode tcp\n    server remote_host_" ++
      toString e.port ++ " " ++ e.ip ++ ":" ++ toString e.port ++
      " check\n    ",
      "\n\n" ++ HAProxyManager.frontend_block e.tunnel e.port, ?_⟩
    have hsplit : " check\n    default-server inter 10s fall 3 rise 2\n\n" =
        " check\n    " ++ "default-server inter 10s fall 3 rise 2" ++
          "\n\n" := rfl
    rw [HAProxyManager.entry_text, HAProxyManager.backend_block, hsplit]
    simp only [String.append_assoc]

/-- C3 witness: the spec's scenario — tunnel a forwards 80 to 10.0.0.2
and tunnel b forwards 443 to 10.0.0.3 — yields exactly one
frontend/backend pair for (a, 80). -/
theorem haproxy_config_synthesis_witness :
    (HAProxyManager.config_entries
      [⟨"a", "10.0.0.2", [80]⟩, ⟨"b", "10.0.0.3", [443]⟩]).countP
      (HAProxyManager.entry_matches "a" 80) = 1 :=
  (haproxy_config_synthesis
    [⟨"a", "10.0.0.2", [80]⟩, ⟨"b", "10.0.0.3", [443]⟩]
    ⟨"a", "10.0.0.2", [80]⟩ 80 (by decide) (by decide) (by decide)
    (by decide) (by decide)).1

/-! ## Claim C8: the one-shot config backup -/

/-- C8: across any sequence of Proxy-Config config writes, an existing
backup file is never overwritten by a later write, and when a
pre-existing live config is present with no backup yet, the backup after
any nonempty write sequence is exactly that pre-existing content —
captured once, before the first generated write. -/
theorem haproxy_backup_once (env : HAProxyManager.Env)
    (fs : HAProxyManager.FS) (cs : List String) (l b : String) :
    (fs.backup = some b →
      (HAProxyManager.write_trace env fs cs).backup = some b) ∧
    (fs.live = some l → fs.backup = none → cs ≠ [] →
      (HAProxyManager.write_trace env fs cs).backup = some l) := by
  constructor
  · intro hb
    exact HAProxyManager.write_trace_backup_some env cs fs b hb
  · intro hl hbn hcs
    obtain ⟨c, cs', rfl⟩ := List.exists_cons_of_ne_nil hcs
    rw [HAProxyManager.write_trace, List.foldl_cons]
    exact HAProxyManager.write_trace_backup_some env cs'
      (HAProxyManager.write_config_file env fs c).1 l
      (HAProxyManager.write_config_file_backup_capture env fs c l hl hbn)

/-! ## Port-token parsing (Python `str.split`, `str.strip`, `int()`) -/

/-- Python `str.split(sep)` for a one-character separator, over the
character list; splitting keeps empty fields. -/
def py_split_chars (sep : Char) : List Char → List (List Char)
  | [] => [[]]
  | c :: rest =>
    let r := py_split_chars sep rest
    if c = sep then [] :: r
    else
      match r with
      | g :: gs => (c :: g) :: gs
      | [] => [[c]]

/-- Python `str.split(sep)` for a one-character separator. -/
def py_split (s : String) (sep : Char) : List String :=
  (py_split_chars sep s.toList).map (fun g => String.mk g)

/-- The whitespace Python `str.strip()` removes, restricted to the ASCII
whitespace that can occur in the handled port strings. -/
def py_is_space (c : Char) : Bool :=
  c = ' ' || c = '\t' || c = '\n' || c = '\r'

/-- Python `str.strip()`. -/
def py_strip (s : String) : String :=
  String.mk (((s.toList.dropWhile py_is_space).reverse.dropWhile
    py_is_space).reverse)

/-- The numeric value of a list of decimal digits. -/
def digits_value (cs : List Char) : Nat :=
  cs.foldl (fun a c => a * 10 + (c.toNat - 48)) 0

/-- Python `int()` digit parsing for a sign-free token: decimal digit
groups that may be separated by single underscores (Python 3 allows
`1_0`); an empty token, an empty group or a non-digit character fail.
Non-ASCII decimal digits, which Python would also accept, never occur in
the port strings this code handles and are not modelled. -/
def pyDigits? (cs : List Char) : Option Nat :=
  let groups := py_split_chars '_' cs
  if groups.all (fun g => !g.isEmpty && g.all Char.isDigit) then
    some (digits_value groups.flatten)
  else none

/-- Python `int()` on a stripped token: an optional leading sign, then
digits per `pyDigits?`. -/
def pyInt? (s : String) : Option Int :=
  match s.toList with
  | '-' :: rest => (pyDigits? rest).map (fun n => -(n : Int))
  | '+' :: rest => (pyDigits? rest).map (fun n => (n : Int))
  | cs => (pyDigits? cs).map (fun n => (n : Int))

/-! ## haproxy_manager.py: batch operations -/

namespace HAProxyManager

/-- The token list both HAProxy batch operations iterate:
`[p.strip() for p in ports_str.split(',') if p.strip()]`. -/
def split_ports (s : String) : List String :=
  ((py_split s ',').map py_strip).filter (fun t => t != "")

/-- Accumulator of `add_multiple_forwards`: the evolving manager state,
the per-token result lines, the activated ports and the count of
inactive entries (the source keeps the inactive tokens in a list and
only ever uses its length). -/
structure BatchAcc where
  st : St
  results : List String
  active : List Int
  inactive : Nat

/-- One loop iteration of `HAProxyManager.add_multiple_forwards`: parse
the token with `int()`; a parse failure is reported for that token alone
(ValueError is caught inside the loop), a parsed port goes through
`create_forward` and is reported as ACTIVE or INACTIVE. -/
def add_multiple_step (env : Env) (acc : BatchAcc) (tok : String) : BatchAcc :=
  match pyInt? tok with
  | some port =>
    let r := create_forward env acc.st port
    if r.2.1 then
      { st := r.1,
        results := acc.results ++
          ["✓ Port " ++ toString port ++ ": ACTIVE - " ++ r.2.2],
        active := acc.active ++ [port], inactive := acc.inactive }
    else
      { st := r.1,
        results := acc.results ++
          ["✗ Port " ++ toString port ++ ": INACTIVE - " ++ r.2.2],
        active := acc.active, inactive := acc.inactive + 1 }
  | none =>
    { acc with
      results := acc.results ++
        ["✗ Port '" ++ tok ++ "': INACTIVE - Invalid port number"],
      inactive := acc.inactive + 1 }

/-- Source `HAProxyManager.add_multiple_forwards`: iterate the
comma-separated tokens (no range syntax exists here), then append the
trailing summary; always returns overall success. -/
def add_multiple_forwards (env : Env) (st : St) (ports_str : String) :
    St × Bool × String :=
  let acc := (split_ports ports_str).foldl (add_multiple_step env)
    { st := st, results := [], active := [], inactive := 0 }
  let results :=
    if acc.active.length != 0 && acc.inactive != 0 then
      acc.results ++ ["\n\nSummary: " ++ toString acc.active.length ++
        " port(s) activated, " ++ toString acc.inactive ++
        " port(s) inactive due to conflicts"]
    else if acc.active.length != 0 then
      acc.results ++ ["\n\nAll " ++ toString acc.active.length ++
        " port(s) activated successfully"]
    else if acc.inactive != 0 then
      acc.results ++ ["\n\nAll " ++ toString acc.inactive ++
        " port(s) inactive - unable to activate due to conflicts"]
    else acc.results
  (acc.st, true, String.intercalate "\n" results)

/-- One loop iteration of `HAProxyManager.remove_multiple_forwards`. -/
def remove_multiple_step (env : Env) (acc : St × List String)
    (tok : String) : St × List String :=
  match pyInt? tok with
  | some port =>
    let r := remove_forward env acc.1 port
    (r.1, acc.2 ++ ["Port " ++ toString port ++ ": " ++ r.2.2])
  | none =>
    (acc.1, acc.2 ++ ["Port '" ++ tok ++ "': Invalid port number"])

/-- Source `HAProxyManager.remove_multiple_forwards`. -/
def remove_multiple_forwards (env : Env) (st : St) (ports_str : String) :
    St × Bool × String :=
  let acc := (split_ports ports_str).foldl (remove_multiple_step env) (st, [])
  (acc.1, true, String.intercalate "\n" acc.2)

/-- The state component of one batch-add iteration: only parsed tokens
touch the manager state. -/
def batch_st_step (env : Env) (st : St) (tok : String) : St :=
  match pyInt? tok with
  | some port => (create_forward env st port).1
  | none => st

theorem add_multiple_st_eq (env : Env) (toks : List String) :
    ∀ acc : BatchAcc, (toks.foldl (add_multiple_step env) acc).st =
      toks.foldl (batch_st_step env) acc.st := by
  induction toks with
  | nil =>
    intro acc
    rfl
  | cons t ts ih =>
    intro acc
    rw [List.foldl_cons, List.foldl_cons, ih]
    congr 1
    unfold add_multiple_step batch_st_step
    cases pyInt? t with
    | none => rfl
    | some port =>
      by_cases hr : (create_forward env acc.st port).2.1 <;> simp [hr]

theorem batch_st_skip_invalid (env : Env) (st : St) (pre post : List String)
    (tok : String) (htok : pyInt? tok = none) :
    (pre ++ tok :: post).foldl (batch_st_step env) st =
      (pre ++ post).foldl (batch_st_step env) st := by
  rw [List.foldl_append, List.foldl_append, List.foldl_cons]
  congr 1
  unfold batch_st_step
  rw [htok]

end HAProxyManager

/-! ## socat_manager.py: the process-per-port backend -/

namespace SocatManager

/-- Outcomes of the external calls the socat backend makes: the
`which socat` install check, the `netstat` listening probe before the
launch, the `lsof`/`ps` process resolution, the `nohup socat ... &`
launch verdict with its stderr, the listening probe 0.5s after the
launch, and the listening probe 0.5s after a targeted `pkill`. -/
structure Env where
  socat_installed : Bool
  listening : Int → Bool
  port_process : Int → Option String
  launch_ok : Bool
  launch_err : String
  listening_after : Int → Bool
  listening_after_kill : Int → Bool

/-- The bounded wait (milliseconds) between launching the helper and
confirming the listener, `time.sleep(0.5)` in the source. -/
def socat_verify_wait_ms : Nat := 500

/-- Source `SocatManager.start_forward`: install check, pre-launch
listening probe with best-effort process diagnostics, detached launch,
bounded wait, then confirm the port actually listens before declaring
success. -/
def start_forward (env : Env) (local_port : Int) (remote_ip : String)
    (remote_port : Int) : Bool × String :=
  if !env.socat_installed then
    (false, "socat is not installed. Install with: apt-get install socat")
  else if env.listening local_port then
    (false, "Port " ++ toString local_port ++ " is already in use by: " ++
      ((env.port_process local_port).getD "unknown process"))
  else if !env.launch_ok then
    (false, "Failed to start socat: " ++ env.launch_err)
  else if env.listening_after local_port then
    (true, "Socat forward started: " ++ toString local_port ++ " → " ++
      remote_ip ++ ":" ++ toString remote_port)
  else
    (false, "Socat process did not start successfully (check logs)")

/-- Source `SocatManager.stop_forward`: a port that is not listening is
already stopped; otherwise send the pattern-matched `pkill`, wait, and
confirm the port stopped listening. -/
def stop_forward (env : Env) (local_port : Int) : Bool × String :=
  if !env.listening local_port then
    (true, "Port " ++ toString local_port ++ " is not being forwarded")
  else if !env.listening_after_kill local_port then
    (true, "Stopped socat forward on port " ++ toString local_port)
  else
    (false, "Failed to stop socat on port " ++ toString local_port)

/-- Source `SocatManager.create_forward`: guard against a missing tunnel
config, an already-forwarded port and a missing remote IP, then start
the helper; the rule is persisted only after `start_forward` confirmed
the listener. -/
def create_forward (env : Env) (cfg : Option Tunnel) (port : Int) :
    Option Tunnel × Bool × String :=
  match cfg with
  | none => (none, false, "No tunnel configuration provided")
  | some c =>
    if port ∈ c.forwarded_ports then
      (some c, false, "Port " ++ toString port ++ " already in forwarded list")
    else if c.remote_forward_ip = "" then
      (some c, false, "Remote forward IP not configured for this tunnel")
    else
      let r := start_forward env port c.remote_forward_ip port
      if !r.1 then (some c, false, r.2)
      else
        (some { c with forwarded_ports :=
            TunnelConfig.add_port c.forwarded_ports port },
         true, "Port forward for " ++ toString port ++ " started (socat)")

/-- Source `SocatManager.remove_forward`: only a confirmed stop removes
the rule from the store. -/
def remove_forward (env : Env) (cfg : Option Tunnel) (port : Int) :
    Option Tunnel × Bool × String :=
  match cfg with
  | none => (none, false, "No tunnel configuration provided")
  | some c =>
    if port ∉ c.forwarded_ports then
      (some c, false, "Port " ++ toString port ++ " is not in forwarded list")
    else
      let r := stop_forward env port
      if !r.1 then (some c, false, r.2)
      else
        (some { c with forwarded_ports :=
            TunnelConfig.remove_port c.forwarded_ports port },
         true, "Port forward " ++ toString port ++ " removed")

/-- Python `range(start, end + 1)` over ints: empty when `end < start`. -/
def int_range (a b : Int) : List Int :=
  (List.range (b + 1 - a).toNat).map (fun i => a + i)

/-- One comma token of the socat batch syntax: an inclusive `start-end`
range when the token contains a dash (any other dash shape raises
ValueError), else a single `int()` port. -/
def socat_parse_part (part : String) : Option (List Int) :=
  if part.toList.contains '-' then
    match py_split part '-' with
    | [s, e] =>
      match pyInt? s, pyInt? e with
      | some a, some b => some (int_range a b)
      | _, _ => none
    | _ => none
  else (pyInt? part).map (fun n => [n])

/-- The whole-spec parse of the socat batch operations: every token must
parse or the single enclosing `except ValueError` aborts the batch. -/
def socat_parse_tokens : List String → Option (List Int)
  | [] => some []
  | t :: ts =>
    match socat_parse_part t, socat_parse_tokens ts with
    | some ps, some rest => some (ps ++ rest)
    | _, _ => none

/-- The socat batch token list: `ports_str.split(',')` with each part
stripped (empty tokens are kept and fail the parse, unlike HAProxy). -/
def socat_tokens (s : String) : List String :=
  (py_split s ',').map py_strip

/-- Source `SocatManager.add_multiple_forwards`: parse the whole spec up
front — any invalid token aborts the entire batch before any port is
processed — then create each parsed port in order. -/
def add_multiple_forwards (env : Env) (cfg : Option Tunnel)
    (ports_str : String) : Option Tunnel × Bool × String :=
  match socat_parse_tokens (socat_tokens ports_str) with
  | none => (cfg, false, "Invalid port format")
  | some ports =>
    let acc := ports.foldl
      (fun (a : Option Tunnel × List String) p =>
        let r := create_forward env a.1 p
        (r.1, a.2 ++ [r.2.2])) (cfg, [])
    (acc.1, true, String.intercalate "\n" acc.2)

/-- Source `SocatManager.remove_multiple_forwards`: same up-front parse;
ports absent from the forwarded list are silently skipped. -/
def remove_multiple_forwards (env : Env) (cfg : Tunnel)
    (ports_str : String) : Tunnel × Bool × String :=
  match socat_parse_tokens (socat_tokens ports_str) with
  | none => (cfg, false, "Invalid port format")
  | some ports =>
    let acc := ports.foldl
      (fun (a : Tunnel × List String) p =>
        if p ∈ a.1.forwarded_ports then
          match remove_forward env (some a.1) p with
          | (some c2, _, msg) => (c2, a.2 ++ [msg])
          | (none, _, msg) => (a.1, a.2 ++ [msg])
        else a) (cfg, [])
    (acc.1, true, String.intercalate "\n" acc.2)

theorem socat_parse_tokens_none {tok : String}
    (htok : socat_parse_part tok = none) (pre post : List String) :
    socat_parse_tokens (pre ++ tok :: post) = none := by
  induction pre with
  | nil =>
    rw [List.nil_append]
    unfold socat_parse_tokens
    rw [htok]
  | cons u pre ih =>
    rw [List.cons_append]
    unfold socat_parse_tokens
    rw [ih]
    cases socat_parse_part u <;> rfl

end SocatManager

/-! ## forward.py: the in-process relay backend -/

namespace ForwardManager

/-- The relay manager's state: the in-memory `self.servers` dict (port to
`server.running`) and the managed tunnel config. -/
structure St where
  servers : List (Int × Bool)
  cfg : Tunnel
deriving DecidableEq

/-- The only external outcome of the relay backend's `StartAll`: whether
binding the listener socket on each port succeeds. -/
structure Env where
  bind_ok : Int → Bool

/-- Source `ForwardManager.create_forward`: guard on a configured remote
IP and on the in-memory server map, then register a (not yet running)
server object and persist the port.  NOTE: the guard consults only
`self.servers`; the persisted forwarded list is not checked and no OS
listening-socket probe is made. -/
def create_forward (st : St) (port : Int) : St × Bool × String :=
  if st.cfg.remote_forward_ip = "" then
    (st, false, "Remote forward IP not configured")
  else if (st.servers.lookup port).isSome then
    (st, false, "Port " ++ toString port ++ " already forwarding")
  else
    ({ servers := st.servers ++ [(port, false)],
       cfg := { st.cfg with forwarded_ports :=
         TunnelConfig.add_port st.cfg.forwarded_ports port } },
     true,
     "Port forward for " ++ toString port ++ " created (-> " ++
       st.cfg.remote_forward_ip ++ ":" ++ toString port ++ ")")

/-- Update the recorded running flag of port `p`. -/
def set_running (sv : List (Int × Bool)) (p : Int) (b : Bool) :
    List (Int × Bool) :=
  sv.map (fun e => if e.1 = p then (p, b) else e)

/-- Accumulator of the `start_all_forwards` loop: the server map after
ensuring server objects, the ports whose `server.start()` task was
created, and the per-port result lines. -/
structure ScheduleAcc where
  servers : List (Int × Bool)
  scheduled : List Int
  results : List String
deriving DecidableEq

/-- One iteration of the `start_all_forwards` loop: ensure a server
object exists for the port, and when it is not already running create
the start task and append "Port p: starting...". -/
def schedule_step (acc : ScheduleAcc) (p : Int) : ScheduleAcc :=
  match acc.servers.lookup p with
  | none =>
    { servers := acc.servers ++ [(p, false)],
      scheduled := acc.scheduled ++ [p],
      results := acc.results ++ ["Port " ++ toString p ++ ": starting..."] }
  | some running =>
    if running then acc
    else
      { acc with
        scheduled := acc.scheduled ++ [p],
        results := acc.results ++ ["Port " ++ toString p ++ ": starting..."] }

/-- The scheduling pass of `ForwardManager.start_all_forwards` over the
tunnel's forwarded ports. -/
def start_all_schedule (st : St) : ScheduleAcc :=
  st.cfg.forwarded_ports.foldl schedule_step
    { servers := st.servers, scheduled := [], results := [] }

/-- Source `ForwardManager.start_all_forwards` — its returned value: the
created tasks have not run yet when the function returns, so the result
lines say "starting..." for every scheduled port and the flag is always
`true`, whatever the later bind outcomes. -/
def start_all_forwards (st : St) : Bool × String :=
  let acc := start_all_schedule st
  if acc.results = [] then (true, "No port forwards configured")
  else (true, String.intercalate "\n" acc.results)

/-- The scheduled `ForwardServer.start` tasks, run to completion: a task
whose bind succeeds leaves its server running, a bind failure
(`OSError`) leaves only that server stopped. -/
def run_start_tasks (env : Env) (servers : List (Int × Bool))
    (scheduled : List Int) : List (Int × Bool) :=
  scheduled.foldl (fun sv q => set_running sv q (env.bind_ok q)) servers

/-- The server map after `start_all_forwards` returned and every created
start task ran. -/
def start_all_final (env : Env) (st : St) : List (Int × Bool) :=
  run_start_tasks env (start_all_schedule st).servers
    (start_all_schedule st).scheduled

theorem lookup_set_running_self (sv : List (Int × Bool)) (p : Int)
    (b : Bool) :
    (set_running sv p b).lookup p = (sv.lookup p).map (fun _ => b) := by
  induction sv with
  | nil => rfl
  | cons e tl ih =>
    obtain ⟨k, v⟩ := e
    by_cases h : k = p
    · subst h
      simp [set_running, List.lookup_cons]
    · have hbeq : (p == k) = false := beq_eq_false_iff_ne.mpr (by omega)
      simp only [set_running] at ih
      simp only [set_running, List.map_cons]
      rw [if_neg h]
      simp only [List.lookup_cons, hbeq]
      exact ih

theorem lookup_set_running_ne (sv : List (Int × Bool)) (p q : Int)
    (b : Bool) (h : q ≠ p) :
    (set_running sv q b).lookup p = sv.lookup p := by
  induction sv with
  | nil => rfl
  | cons e tl ih =>
    obtain ⟨k, v⟩ := e
    simp only [set_running] at ih
    simp only [set_running, List.map_cons]
    by_cases he : k = q
    · subst he
      have hbeq : (p == k) = false := beq_eq_false_iff_ne.mpr (by omega)
      rw [if_pos rfl]
      simp only [List.lookup_cons, hbeq]
      exact ih
    · rw [if_neg he]
      simp only [List.lookup_cons]
      cases hpe : p == k
      · exact ih
      · rfl

theorem lookup_run_start_tasks (env : Env) (p : Int) :
    ∀ (scheduled : List Int) (sv : List (Int × Bool)) (v : Bool),
      sv.lookup p = some v →
      (run_start_tasks env sv scheduled).lookup p =
        some (if p ∈ scheduled then env.bind_ok p else v) := by
  intro scheduled
  induction scheduled with
  | nil =>
    intro sv v hv
    simpa [run_start_tasks] using hv
  | cons q S ih =>
    intro sv v hv
    rw [run_start_tasks, List.foldl_cons]
    by_cases hqp : q = p
    · subst hqp
      have h1 : (set_running sv q (env.bind_ok q)).lookup q =
          some (env.bind_ok q) := by
        rw [lookup_set_running_self, hv]
        rfl
      have h2 := ih (set_running sv q (env.bind_ok q)) (env.bind_ok q) h1
      rw [run_start_tasks] at h2
      rw [h2]
      by_cases hqS : q ∈ S <;> simp [hqS]
    · have h1 : (set_running sv q (env.bind_ok q)).lookup p = some v := by
        rw [lookup_set_running_ne sv p q _ hqp, hv]
      have h2 := ih (set_running sv q (env.bind_ok q)) v h1
      rw [run_start_tasks] at h2
      rw [h2]
      have hiff : (p ∈ q :: S) ↔ (p ∈ S) := by
        constructor
        · intro hc
          rcases List.mem_cons.mp hc with hc1 | hc2
          · exact absurd hc1.symm hqp
          · exact hc2
        · intro hc
          exact List.mem_cons.mpr (Or.inr hc)
      simp only [hiff]

theorem lookup_run_start_tasks_congr (env env2 : Env) (p : Int)
    (hb : env.bind_ok p = env2.bind_ok p) :
    ∀ (scheduled : List Int) (sv1 sv2 : List (Int × Bool)),
      sv1.lookup p = sv2.lookup p →
      (run_start_tasks env sv1 scheduled).lookup p =
        (run_start_tasks env2 sv2 scheduled).lookup p := by
  intro scheduled
  induction scheduled with
  | nil =>
    intro sv1 sv2 h
    simpa [run_start_tasks] using h
  | cons q S ih =>
    intro sv1 sv2 h
    rw [run_start_tasks, List.foldl_cons, run_start_tasks, List.foldl_cons]
    have hstep : (set_running sv1 q (env.bind_ok q)).lookup p =
        (set_running sv2 q (env2.bind_ok q)).lookup p := by
      by_cases hqp : q = p
      · subst hqp
        rw [lookup_set_running_self, lookup_set_running_self, h, hb]
      · rw [lookup_set_running_ne sv1 p q _ hqp,
          lookup_set_running_ne sv2 p q _ hqp, h]
    have h2 := ih (set_running sv1 q (env.bind_ok q))
      (set_running sv2 q (env2.bind_ok q)) hstep
    rw [run_start_tasks] at h2
    exact h2

theorem lookup_append_of_isSome (sv tl : List (Int × Bool)) (p : Int)
    (h : (sv.lookup p).isSome) : (sv ++ tl).lookup p = sv.lookup p := by
  induction sv with
  | nil => simp [List.lookup] at h
  | cons e es ih =>
    obtain ⟨k, v⟩ := e
    rw [List.cons_append, List.lookup_cons, List.lookup_cons]
    cases hpe : p == k
    · simp only [List.lookup_cons, hpe] at h
      exact ih h
    · rfl

theorem lookup_append_right_of_none (sv tl : List (Int × Bool)) (p : Int)
    (h : sv.lookup p = none) : (sv ++ tl).lookup p = tl.lookup p := by
  induction sv with
  | nil => rfl
  | cons e es ih =>
    obtain ⟨k, v⟩ := e
    rw [List.cons_append, List.lookup_cons]
    cases hpe : p == k
    · simp only [List.lookup_cons, hpe] at h
      exact ih h
    · simp only [List.lookup_cons, hpe] at h
      cases h

theorem schedule_step_preserves_isSome (acc : ScheduleAcc) (q p : Int)
    (h : (acc.servers.lookup q).isSome) :
    ((schedule_step acc p).servers.lookup q).isSome := by
  unfold schedule_step
  cases hl : acc.servers.lookup p with
  | none =>
    simp only
    rw [lookup_append_of_isSome _ _ _ h]
    exact h
  | some running =>
    by_cases hr : running <;> simp [hr, h]

theorem schedule_servers_isSome (ports : List Int) (p : Int) :
    ∀ acc : ScheduleAcc,
      ((acc.servers.lookup p).isSome ∨ p ∈ ports) →
      (((ports.foldl schedule_step acc).servers.lookup p).isSome) := by
  induction ports with
  | nil =>
    intro acc h
    rcases h with h | h
    · exact h
    · simp at h
  | cons q ps ih =>
    intro acc h
    rw [List.foldl_cons]
    by_cases hqp : q = p
    · subst hqp
      refine ih _ (Or.inl ?_)
      unfold schedule_step
      cases hl : acc.servers.lookup q with
      | none =>
        simp only
        rw [lookup_append_right_of_none _ _ _ hl]
        simp [List.lookup]
      | some running =>
        by_cases hr : running <;> simp [hr, hl]
    · rcases h with h | h
      · exact ih _ (Or.inl (schedule_step_preserves_isSome acc p q h))
      · rcases List.mem_cons.mp h with heq | hmem
        · exact absurd heq.symm hqp
        · exact ih _ (Or.inr hmem)

theorem schedule_scheduled_isSome (ports : List Int) (p : Int) :
    ∀ acc : ScheduleAcc,
      (∀ q ∈ acc.scheduled, (acc.servers.lookup q).isSome) →
      ∀ q ∈ (ports.foldl schedule_step acc).scheduled,
        (((ports.foldl schedule_step acc).servers.lookup q).isSome) := by
  induction ports with
  | nil =>
    intro acc h
    exact h
  | cons r ps ih =>
    intro acc h
    rw [List.foldl_cons]
    refine ih _ ?_
    intro q hq
    unfold schedule_step at hq ⊢
    cases hl : acc.servers.lookup r with
    | none =>
      simp only [hl] at hq
      simp only
      rcases List.mem_append.mp hq with hq1 | hq2
      · rw [lookup_append_of_isSome _ _ _ (h q hq1)]
        exact h q hq1
      · have : q = r := by simpa using hq2
        subst this
        rw [lookup_append_right_of_none _ _ _ hl]
        simp [List.lookup]
    | some running =>
      by_cases hr : running
      · simp only [hl, if_pos hr] at hq
        simp only [hl, if_pos hr]
        exact h q hq
      · simp only [hl, if_neg hr] at hq
        simp only [hl, if_neg hr]
        rcases List.mem_append.mp hq with hq1 | hq2
        · exact h q hq1
        · have : q = r := by simpa using hq2
          subst this
          simp [hl]

end ForwardManager

/-! ## The relay data routines: forward.py `ForwardServer._relay_data`
and the optimized module-level `_relay_data` of forward_legacy.py -/

namespace RelayData

/-- The direction of one relay routine; the source passes the string
"client->remote" or "remote->client" and tests it by substring. -/
inductive Direction
  | clientToRemote
  | remoteToClient
deriving DecidableEq

/-- The counters a relay routine touches: the per-session
`bytes_sent` / `bytes_received`, the per-backend
`stats["total_bytes_sent"] / ["total_bytes_received"]`, the bytes
written but not yet drained, and the number of `writer.drain()` calls. -/
structure RelayAcc where
  session_sent : Nat
  session_received : Nat
  stats_sent : Nat
  stats_received : Nat
  pending : Nat
  drains : Nat
deriving DecidableEq

/-- How a relay loop ends: an empty read (EOF) or an idle-read timeout
(`asyncio.TimeoutError`, caught and treated as normal end). -/
inductive StreamEnd
  | eof
  | timeout
deriving DecidableEq

/-- All counters start at zero for a fresh session. -/
def init_acc : RelayAcc :=
  { session_sent := 0, session_received := 0, stats_sent := 0,
    stats_received := 0, pending := 0, drains := 0 }

/-- The statistics update both routines share: the chunk length is added
to the session counter and the backend counter of the direction. -/
def count_chunk (d : Direction) (acc : RelayAcc) (n : Nat) : RelayAcc :=
  match d with
  | .clientToRemote =>
    { acc with
      session_sent := acc.session_sent + n,
      stats_sent := acc.stats_sent + n }
  | .remoteToClient =>
    { acc with
      session_received := acc.session_received + n,
      stats_received := acc.stats_received + n }

/-- forward.py `ForwardServer._relay_data`: `reader.read(4096)`. -/
def relay_read_size : Nat := 4096

/-- forward.py `ForwardServer._relay_data`: `asyncio.wait_for(...,
timeout=300)`, in seconds. -/
def relay_read_timeout_s : Nat := 300

/-- One loop iteration of forward.py `ForwardServer._relay_data`: count
the chunk, write it, then `await writer.drain()` — a drain after every
single write. -/
def relay_step (d : Direction) (acc : RelayAcc) (n : Nat) : RelayAcc :=
  let acc1 := count_chunk d acc n
  { acc1 with drains := acc1.drains + 1 }

/-- forward.py `ForwardServer._relay_data` over the chunk sizes the
reads deliver (the loop body runs once per nonempty chunk; EOF or
timeout then ends the loop with no further drain). -/
def relay_data (d : Direction) (chunks : List Nat) : RelayAcc :=
  chunks.foldl (relay_step d) init_acc

/-- forward_legacy.py `_relay_data`: `BUFFER_SIZE = 65536`. -/
def legacy_read_size : Nat := 65536

/-- forward_legacy.py `_relay_data`: `timeout=60`, in seconds. -/
def legacy_read_timeout_s : Nat := 60

/-- forward_legacy.py `_relay_data`: `drain_threshold = 262144`. -/
def legacy_drain_threshold : Nat := 262144

/-- One loop iteration of forward_legacy.py `_relay_data`: count the
chunk, write it, add it to the pending bytes, and drain (resetting the
pending count) only when the pending bytes reach the 256KB threshold. -/
def legacy_step (d : Direction) (acc : RelayAcc) (n : Nat) : RelayAcc :=
  let acc1 := count_chunk d acc n
  let acc2 := { acc1 with pending := acc1.pending + n }
  if legacy_drain_threshold ≤ acc2.pending then
    { acc2 with drains := acc2.drains + 1, pending := 0 }
  else acc2

/-- forward_legacy.py `_relay_data` over the delivered chunk sizes: the
loop, then — only when the loop ended by EOF rather than by the timeout
exception — one final drain if bytes are still pending. -/
def legacy_relay_data (d : Direction) (chunks : List Nat)
    (ending : StreamEnd) : RelayAcc :=
  let acc := chunks.foldl (legacy_step d) init_acc
  match ending with
  | .eof =>
    if 0 < acc.pending then { acc with drains := acc.drains + 1 } else acc
  | .timeout => acc

theorem relay_step_proj (d : Direction) (acc : RelayAcc) (n : Nat) :
    (relay_step d acc n).drains = acc.drains + 1 ∧
    (relay_step d acc n).session_sent + (relay_step d acc n).session_received
      = acc.session_sent + acc.session_received + n := by
  cases d <;> simp [relay_step, count_chunk] <;> omega

theorem relay_fold_counters (d : Direction) (chunks : List Nat) :
    ∀ acc : RelayAcc,
      (chunks.foldl (relay_step d) acc).drains =
        acc.drains + chunks.length ∧
      (chunks.foldl (relay_step d) acc).session_sent +
        (chunks.foldl (relay_step d) acc).session_received =
        acc.session_sent + acc.session_received + chunks.sum := by
  induction chunks with
  | nil =>
    intro acc
    simp
  | cons n ns ih =>
    intro acc
    rw [List.foldl_cons, List.sum_cons, List.length_cons]
    obtain ⟨ih1, ih2⟩ := ih (relay_step d acc n)
    obtain ⟨h1, h2⟩ := relay_step_proj d acc n
    constructor
    · rw [ih1, h1]
      omega
    · rw [ih2]
      omega

theorem legacy_step_proj_ctr (acc : RelayAcc) (n : Nat) :
    (legacy_step .clientToRemote acc n).session_sent =
      acc.session_sent + n ∧
    (legacy_step .clientToRemote acc n).session_received =
      acc.session_received ∧
    (legacy_step .clientToRemote acc n).stats_sent = acc.stats_sent + n ∧
    (legacy_step .clientToRemote acc n).stats_received =
      acc.stats_received := by
  by_cases hth : legacy_drain_threshold ≤ acc.pending + n <;>
    simp [legacy_step, count_chunk, hth]

theorem legacy_step_proj_rtc (acc : RelayAcc) (n : Nat) :
    (legacy_step .remoteToClient acc n).session_sent = acc.session_sent ∧
    (legacy_step .remoteToClient acc n).session_received =
      acc.session_received + n ∧
    (legacy_step .remoteToClient acc n).stats_sent = acc.stats_sent ∧
    (legacy_step .remoteToClient acc n).stats_received =
      acc.stats_received + n := by
  by_cases hth : legacy_drain_threshold ≤ acc.pending + n <;>
    simp [legacy_step, count_chunk, hth]

theorem legacy_fold_counters_ctr (chunks : List Nat) :
    ∀ acc : RelayAcc,
      (chunks.foldl (legacy_step .clientToRemote) acc).session_sent =
        acc.session_sent + chunks.sum ∧
      (chunks.foldl (legacy_step .clientToRemote) acc).session_received =
        acc.session_received ∧
      (chunks.foldl (legacy_step .clientToRemote) acc).stats_sent =
        acc.stats_sent + chunks.sum ∧
      (chunks.foldl (legacy_step .clientToRemote) acc).stats_received =
        acc.stats_received := by
  induction chunks with
  | nil =>
    intro acc
    simp
  | cons n ns ih =>
    intro acc
    rw [List.foldl_cons, List.sum_cons]
    obtain ⟨ih1, ih2, ih3, ih4⟩ := ih (legacy_step .clientToRemote acc n)
    obtain ⟨h1, h2, h3, h4⟩ := legacy_step_proj_ctr acc n
    rw [ih1, ih2, ih3, ih4, h1, h2, h3, h4]
    omega

theorem legacy_fold_counters_rtc (chunks : List Nat) :
    ∀ acc : RelayAcc,
      (chunks.foldl (legacy_step .remoteToClient) acc).session_sent =
        acc.session_sent ∧
      (chunks.foldl (legacy_step .remoteToClient) acc).session_received =
        acc.session_received + chunks.sum ∧
      (chunks.foldl (legacy_step .remoteToClient) acc).stats_sent =
        acc.stats_sent ∧
      (chunks.foldl (legacy_step .remoteToClient) acc).stats_received =
        acc.stats_received + chunks.sum := by
  induction chunks with
  | nil =>
    intro acc
    simp
  | cons n ns ih =>
    intro acc
    rw [List.foldl_cons, List.sum_cons]
    obtain ⟨ih1, ih2, ih3, ih4⟩ := ih (legacy_step .remoteToClient acc n)
    obtain ⟨h1, h2, h3, h4⟩ := legacy_step_proj_rtc acc n
    rw [ih1, ih2, ih3, ih4, h1, h2, h3, h4]
    omega

theorem legacy_fold_total (d : Direction) (chunks : List Nat)
    (acc : RelayAcc) :
    (chunks.foldl (legacy_step d) acc).stats_sent +
      (chunks.foldl (legacy_step d) acc).stats_received =
      acc.stats_sent + acc.stats_received + chunks.sum := by
  cases d
  · obtain ⟨_, _, h3, h4⟩ := legacy_fold_counters_ctr chunks acc
    rw [h3, h4]
    omega
  · obtain ⟨_, _, h3, h4⟩ := legacy_fold_counters_rtc chunks acc
    rw [h3, h4]
    omega

theorem legacy_step_drain_le (d : Direction) (acc : RelayAcc) (n : Nat)
    (h : 262144 * acc.drains + acc.pending ≤
      acc.stats_sent + acc.stats_received) :
    262144 * (legacy_step d acc n).drains + (legacy_step d acc n).pending ≤
      (legacy_step d acc n).stats_sent +
        (legacy_step d acc n).stats_received := by
  have hval : legacy_drain_threshold = 262144 := rfl
  cases d <;> by_cases hth : legacy_drain_threshold ≤ acc.pending + n <;>
    rw [hval] at hth <;> simp [legacy_step, count_chunk, hval, hth] <;>
    omega

theorem legacy_fold_drain_invariant (d : Direction) (chunks : List Nat) :
    ∀ acc : RelayAcc,
      262144 * acc.drains + acc.pending ≤
        acc.stats_sent + acc.stats_received →
      262144 * (chunks.foldl (legacy_step d) acc).drains +
          (chunks.foldl (legacy_step d) acc).pending ≤
        (chunks.foldl (legacy_step d) acc).stats_sent +
          (chunks.foldl (legacy_step d) acc).stats_received := by
  induction chunks with
  | nil =>
    intro acc h
    exact h
  | cons n ns ih =>
    intro acc h
    rw [List.foldl_cons]
    exact ih (legacy_step d acc n) (legacy_step_drain_le d acc n h)

theorem legacy_step_small (d : Direction) (acc : RelayAcc) (n : Nat)
    (hth : ¬ legacy_drain_threshold ≤ acc.pending + n) :
    (legacy_step d acc n).pending = acc.pending + n ∧
    (legacy_step d acc n).drains = acc.drains := by
  cases d <;> simp [legacy_step, count_chunk, hth]

theorem legacy_fold_no_drain (d : Direction) (chunks : List Nat) :
    ∀ acc : RelayAcc,
      acc.pending + chunks.sum < legacy_drain_threshold →
      (chunks.foldl (legacy_step d) acc).drains = acc.drains ∧
      (chunks.foldl (legacy_step d) acc).pending =
        acc.pending + chunks.sum := by
  induction chunks with
  | nil =>
    intro acc h
    simp
  | cons n ns ih =>
    intro acc h
    rw [List.sum_cons] at h
    rw [List.foldl_cons, List.sum_cons]
    have hth : ¬ legacy_drain_threshold ≤ acc.pending + n := by omega
    obtain ⟨hs1, hs2⟩ := legacy_step_small d acc n hth
    obtain ⟨ih1, ih2⟩ := ih (legacy_step d acc n) (by rw [hs1]; omega)
    rw [ih1, ih2, hs1, hs2]
    constructor
    · rfl
    · omega

theorem legacy_relay_data_proj (d : Direction) (chunks : List Nat)
    (ending : StreamEnd) :
    (legacy_relay_data d chunks ending).session_sent =
      (chunks.foldl (legacy_step d) init_acc).session_sent ∧
    (legacy_relay_data d chunks ending).session_received =
      (chunks.foldl (legacy_step d) init_acc).session_received ∧
    (legacy_relay_data d chunks ending).stats_sent =
      (chunks.foldl (legacy_step d) init_acc).stats_sent ∧
    (legacy_relay_data d chunks ending).stats_received =
      (chunks.foldl (legacy_step d) init_acc).stats_received := by
  cases ending <;> unfold legacy_relay_data <;>
    by_cases h0 : 0 < (chunks.foldl (legacy_step d) init_acc).pending <;>
    simp [h0]

theorem legacy_drains_le (d : Direction) (chunks : List Nat)
    (ending : StreamEnd) :
    (legacy_relay_data d chunks ending).drains ≤
      chunks.sum / legacy_drain_threshold + 1 := by
  have hinv := legacy_fold_drain_invariant d chunks init_acc
    (by simp [init_acc])
  have htot := legacy_fold_total d chunks init_acc
  have hzs : init_acc.stats_sent = 0 := rfl
  have hzr : init_acc.stats_received = 0 := rfl
  rw [hzs, hzr] at htot
  have hmul : 262144 * (chunks.foldl (legacy_step d) init_acc).drains ≤
      chunks.sum := by
    omega
  have hdiv : (chunks.foldl (legacy_step d) init_acc).drains ≤
      chunks.sum / 262144 := by
    rw [Nat.le_div_iff_mul_le (by norm_num)]
    omega
  have hfin : (legacy_relay_data d chunks ending).drains ≤
      (chunks.foldl (legacy_step d) init_acc).drains + 1 := by
    cases ending <;> unfold legacy_relay_data <;>
      by_cases h0 : 0 < (chunks.foldl (legacy_step d) init_acc).pending <;>
      simp [h0]
  rw [show legacy_drain_threshold = 262144 from rfl]
  omega

theorem legacy_small_traffic (d : Direction) (chunks : List Nat)
    (h1 : chunks.sum < legacy_drain_threshold) (h2 : 0 < chunks.sum) :
    (legacy_relay_data d chunks .eof).drains = 1 ∧
    (legacy_relay_data d chunks .timeout).drains = 0 := by
  obtain ⟨hd, hp⟩ := legacy_fold_no_drain d chunks init_acc
    (by simpa [init_acc] using h1)
  constructor
  · have hpos : 0 < (chunks.foldl (legacy_step d) init_acc).pending := by
      rw [hp]
      simpa [init_acc] using h2
    simp only [legacy_relay_data]
    rw [if_pos hpos]
    show (chunks.foldl (legacy_step d) init_acc).drains + 1 = 1
    rw [hd]
    rfl
  · simp only [legacy_relay_data]
    rw [hd]
    rfl

theorem relay_drains_eq (d : Direction) (chunks : List Nat) :
    (relay_data d chunks).drains = chunks.length := by
  have h := (relay_fold_counters d chunks init_acc).1
  rw [relay_data, h]
  simp [init_acc]

end RelayData

/-- C8 witness: starting from a pre-existing config "orig" and no backup,
two successive generated writes leave the backup equal to "orig". -/
theorem haproxy_backup_once_witness :
    (HAProxyManager.write_trace
      { validator_ok := fun _ => true, reload_ok := true,
        restart_ok := true, listening := fun _ => false,
        port_process := fun _ => none }
      { live := some "orig", backup := none }
      ["gen1", "gen2"]).backup = some "orig" :=
  (haproxy_backup_once
    { validator_ok := fun _ => true, reload_ok := true,
      restart_ok := true, listening := fun _ => false,
      port_process := fun _ => none }
    { live := some "orig", backup := none }
    ["gen1", "gen2"] "orig" "x").2 rfl rfl (by decide)

/-! ## Claim C9: Process-Per-Port CreateForward -/

/-- C9: Process-Per-Port CreateForward on a fresh port first verifies the
helper binary is installed (failing with a dependency diagnostic
otherwise), probes for a pre-existing listener (aborting without
persisting if occupied), launches the detached helper and, after a
bounded 500ms wait, persists the rule only once the port is confirmed
listening; when the listener never comes up the rule is not persisted. -/
theorem socat_create_forward_protocol (env : SocatManager.Env) (c : Tunnel)
    (port : Int) (hp : port ∉ c.forwarded_ports)
    (hip : c.remote_forward_ip ≠ "") :
    (env.socat_installed = false →
      SocatManager.create_forward env (some c) port =
        (some c, false,
          "socat is not installed. Install with: apt-get install socat")) ∧
    (env.socat_installed = true → env.listening port = true →
      (SocatManager.create_forward env (some c) port).1 = some c ∧
      (SocatManager.create_forward env (some c) port).2.1 = false) ∧
    (env.socat_installed = true → env.listening port = false →
      env.launch_ok = true → env.listening_after port = false →
      SocatManager.create_forward env (some c) port =
        (some c, false,
          "Socat process did not start successfully (check logs)")) ∧
    (env.socat_installed = true → env.listening port = false →
      env.launch_ok = true → env.listening_after port = true →
      (SocatManager.create_forward env (some c) port).1 =
        some { c with forwarded_ports :=
          TunnelConfig.add_port c.forwarded_ports port } ∧
      (SocatManager.create_forward env (some c) port).2.1 = true) ∧
    SocatManager.socat_verify_wait_ms = 500 := by
  refine ⟨?_, ?_, ?_, ?_, rfl⟩
  · intro hi
    simp [SocatManager.create_forward, SocatManager.start_forward, hp, hip,
      hi]
  · intro hi hl
    simp [SocatManager.create_forward, SocatManager.start_forward, hp, hip,
      hi, hl]
  · intro hi hl hk ha
    simp [SocatManager.create_forward, SocatManager.start_forward, hp, hip,
      hi, hl, hk, ha]
  · intro hi hl hk ha
    simp [SocatManager.create_forward, SocatManager.start_forward, hp, hip,
      hi, hl, hk, ha]

/-- A concrete socat environment for evaluating CreateForward: helper
installed, port free, launch succeeds, listener confirmed. -/
def c9_env : SocatManager.Env :=
  { socat_installed := true
    listening := fun _ => false
    port_process := fun _ => none
    launch_ok := true
    launch_err := ""
    listening_after := fun _ => true
    listening_after_kill := fun _ => false }

/-- C9 witness: with the helper installed, the port free and the
listener coming up, CreateForward 80 persists the rule and succeeds. -/
theorem socat_create_forward_protocol_witness :
    (SocatManager.create_forward c9_env (some ⟨"t1", "10.30.30.2", []⟩)
        80).1 = some ⟨"t1", "10.30.30.2", [80]⟩ ∧
    (SocatManager.create_forward c9_env (some ⟨"t1", "10.30.30.2", []⟩)
        80).2.1 = true := by
  have h := socat_create_forward_protocol c9_env ⟨"t1", "10.30.30.2", []⟩
    80 (by decide) (by decide)
  have h4 := h.2.2.2.1 rfl rfl rfl rfl
  exact ⟨h4.1, h4.2⟩

/-! ## Claim C2: CreateForward conflict handling across backends -/

/-- C2 counterexample: the Relay backend's CreateForward consults only
its in-memory server map and makes no OS listening-socket probe; on a
fresh manager whose tunnel already persists port 80 in its forwarded
list, CreateForward 80 returns success instead of a conflict failure,
refuting the claim for "every backend". -/
theorem relay_create_conflict_counterexample :
    (ForwardManager.create_forward
      { servers := [], cfg := ⟨"t1", "10.30.30.2", [80]⟩ } 80).2.1 =
        true ∧
    (ForwardManager.create_forward
      { servers := [], cfg := ⟨"t1", "10.30.30.2", [80]⟩ }
        80).1.cfg.forwarded_ports = [80] := by
  decide

/-- C2 amended: for the Proxy-Config and Process-Per-Port backends,
CreateForward on a port already in the tunnel's forwarded list, or on a
port the OS probe reports as bound, fails and leaves the rule set
unchanged; the Relay backend instead checks only its in-memory server
map — with no live server object it succeeds even on a port already in
the persisted list, and it never probes the OS for unrelated
processes. -/
theorem create_forward_conflicts (henv : HAProxyManager.Env)
    (hst : HAProxyManager.St) (senv : SocatManager.Env) (c : Tunnel)
    (rst : ForwardManager.St) (port : Int) :
    (port ∈ hst.cfg.forwarded_ports →
      (HAProxyManager.create_forward henv hst port).1 = hst ∧
      (HAProxyManager.create_forward henv hst port).2.1 = false) ∧
    (henv.listening port = true →
      (HAProxyManager.create_forward henv hst port).1 = hst ∧
      (HAProxyManager.create_forward henv hst port).2.1 = false) ∧
    (port ∈ c.forwarded_ports →
      (SocatManager.create_forward senv (some c) port).1 = some c ∧
      (SocatManager.create_forward senv (some c) port).2.1 = false) ∧
    (senv.listening port = true →
      (SocatManager.create_forward senv (some c) port).1 = some c ∧
      (SocatManager.create_forward senv (some c) port).2.1 = false) ∧
    ((rst.servers.lookup port) = none → rst.cfg.remote_forward_ip ≠ "" →
      (ForwardManager.create_forward rst port).2.1 = true ∧
      (ForwardManager.create_forward rst port).1.cfg.forwarded_ports =
        TunnelConfig.add_port rst.cfg.forwarded_ports port) := by
  refine ⟨?_, ?_, ?_, ?_, ?_⟩
  · intro hmem
    simp [HAProxyManager.create_forward, hmem]
  · intro hl
    by_cases hmem : port ∈ hst.cfg.forwarded_ports
    · simp [HAProxyManager.create_forward, hmem]
    · cases hpp : henv.port_process port <;>
        simp [HAProxyManager.create_forward, hmem, hl, hpp]
  · intro hmem
    simp [SocatManager.create_forward, hmem]
  · intro hl
    by_cases hmem : port ∈ c.forwarded_ports
    · simp [SocatManager.create_forward, hmem]
    · by_cases hip : c.remote_forward_ip = ""
      · simp [SocatManager.create_forward, hmem, hip]
      · by_cases hi : senv.socat_installed <;>
          simp [SocatManager.create_forward, SocatManager.start_forward,
            hmem, hip, hi, hl]
  · intro hnone hip
    simp [ForwardManager.create_forward, hnone, hip]

/-- A Proxy-Config environment for the conflict witness. -/
def c2_henv : HAProxyManager.Env :=
  { validator_ok := fun _ => false
    reload_ok := false
    restart_ok := false
    listening := fun _ => false
    port_process := fun _ => none }

/-- A Proxy-Config manager state whose tunnel already forwards 80. -/
def c2_hst : HAProxyManager.St :=
  { pre := []
    cfg := ⟨"t1", "10.0.0.2", [80]⟩
    post := []
    fs := { live := none, backup := none } }

/-- An OS probe reporting every port as bound. -/
def c2_senv : SocatManager.Env :=
  { socat_installed := true
    listening := fun _ => true
    port_process := fun _ => some "nginx (PID: 7)"
    launch_ok := true
    launch_err := ""
    listening_after := fun _ => true
    listening_after_kill := fun _ => false }

/-- C2 witness: the conflict outcomes evaluated on concrete states — the
two external backends reject, the relay backend accepts. -/
theorem create_forward_conflicts_witness :
    (HAProxyManager.create_forward c2_henv c2_hst 80).2.1 = false ∧
    (SocatManager.create_forward c2_senv (some ⟨"t2", "10.0.0.3", []⟩)
        80).2.1 = false ∧
    (ForwardManager.create_forward
      { servers := [], cfg := ⟨"t3", "10.0.0.4", [] ⟩ } 80).2.1 = true := by
  have h := create_forward_conflicts c2_henv c2_hst c2_senv
    ⟨"t2", "10.0.0.3", []⟩ { servers := [], cfg := ⟨"t3", "10.0.0.4", []⟩ }
    80
  exact ⟨(h.1 (by decide)).2, (h.2.2.2.1 rfl).2,
    (h.2.2.2.2 rfl (by decide)).1⟩

/-! ## Claim C7: Relay StartAll -/

/-- C7 counterexample: with bind failing on port 80, the relay backend's
StartAll still returns success and the line "Port 80: starting..." —
the bind failure is only logged inside the port's task and never appears
in StartAll's result; the server is left not running. -/
theorem relay_start_all_counterexample :
    (ForwardManager.start_all_forwards
      { servers := [], cfg := ⟨"t1", "10.30.30.2", [80]⟩ }).1 = true ∧
    (ForwardManager.start_all_forwards
      { servers := [], cfg := ⟨"t1", "10.30.30.2", [80]⟩ }).2 =
      "Port 80: starting..." ∧
    ForwardManager.start_all_final { bind_ok := fun _ => false }
      { servers := [], cfg := ⟨"t1", "10.30.30.2", [80]⟩ } =
      [(80, false)] := by
  refine ⟨rfl, ?_, rfl⟩
  decide

/-- C7 amended: Relay StartAll ensures a listener (server object) exists
for every currently-forwarded rule and schedules each start as its own
task; a scheduled port ends up running exactly when its own bind
succeeds, and a port's final state depends only on its own bind outcome
— a bind failure on one port never aborts the rest.  The returned
result, however, reports "starting..." optimistically and always
succeeds: bind failures are logged, not reported in the result. -/
theorem relay_start_all (env env2 : ForwardManager.Env)
    (st : ForwardManager.St) (p : Int) :
    (p ∈ st.cfg.forwarded_ports →
      ((ForwardManager.start_all_final env st).lookup p).isSome) ∧
    (p ∈ (ForwardManager.start_all_schedule st).scheduled →
      (ForwardManager.start_all_final env st).lookup p =
        some (env.bind_ok p)) ∧
    (env.bind_ok p = env2.bind_ok p →
      (ForwardManager.start_all_final env st).lookup p =
        (ForwardManager.start_all_final env2 st).lookup p) ∧
    (ForwardManager.start_all_forwards st).1 = true := by
  refine ⟨?_, ?_, ?_, ?_⟩
  · intro hp
    have hsched := ForwardManager.schedule_servers_isSome
      st.cfg.forwarded_ports p
      { servers := st.servers, scheduled := [], results := [] }
      (Or.inr hp)
    obtain ⟨v, hv⟩ := Option.isSome_iff_exists.mp hsched
    have := ForwardManager.lookup_run_start_tasks env p
      (ForwardManager.start_all_schedule st).scheduled
      (ForwardManager.start_all_schedule st).servers v hv
    rw [ForwardManager.start_all_final, this]
    rfl
  · intro hp
    have hs := ForwardManager.schedule_scheduled_isSome
      st.cfg.forwarded_ports p
      { servers := st.servers, scheduled := [], results := [] }
      (by intro q hq; simp at hq)
      p hp
    obtain ⟨v, hv⟩ := Option.isSome_iff_exists.mp hs
    have := ForwardManager.lookup_run_start_tasks env p
      (ForwardManager.start_all_schedule st).scheduled
      (ForwardManager.start_all_schedule st).servers v hv
    rw [ForwardManager.start_all_final, this, if_pos hp]
  · intro hb
    exact ForwardManager.lookup_run_start_tasks_congr env env2 p hb
      (ForwardManager.start_all_schedule st).scheduled
      (ForwardManager.start_all_schedule st).servers
      (ForwardManager.start_all_schedule st).servers rfl
  · rw [ForwardManager.start_all_forwards]
    by_cases h : (ForwardManager.start_all_schedule st).results = [] <;>
      simp [h]

/-- C7 witness: on a tunnel forwarding ports 80 and 81 where only 80
binds, port 80 ends up running, port 81 ends up stopped, and both have
server objects. -/
theorem relay_start_all_witness :
    ((ForwardManager.start_all_final { bind_ok := fun q => q == 80 }
      { servers := [], cfg := ⟨"t1", "10.30.30.2", [80, 81]⟩ }).lookup
        80).isSome ∧
    (ForwardManager.start_all_final { bind_ok := fun q => q == 80 }
      { servers := [], cfg := ⟨"t1", "10.30.30.2", [80, 81]⟩ }).lookup 81 =
      some false ∧
    (ForwardManager.start_all_forwards
      { servers := [], cfg := ⟨"t1", "10.30.30.2", [80, 81]⟩ }).1 =
      true := by
  have h80 := relay_start_all { bind_ok := fun q => q == 80 }
    { bind_ok := fun q => q == 80 }
    { servers := [], cfg := ⟨"t1", "10.30.30.2", [80, 81]⟩ } 80
  have h81 := relay_start_all { bind_ok := fun q => q == 80 }
    { bind_ok := fun q => q == 80 }
    { servers := [], cfg := ⟨"t1", "10.30.30.2", [80, 81]⟩ } 81
  refine ⟨h80.1 (by decide), ?_, h81.2.2.2⟩
  have := h81.2.1 (by decide)
  rw [this]
  rfl

/-! ## Claim C5: batch port specifications -/

/-- A socat environment in which every creation would succeed, showing
that the batch abort is caused by parsing alone. -/
def c5_senv : SocatManager.Env :=
  { socat_installed := true
    listening := fun _ => false
    port_process := fun _ => none
    launch_ok := true
    launch_err := ""
    listening_after := fun _ => true
    listening_after_kill := fun _ => false }

/-- C5 counterexample: in the Process-Per-Port backend the invalid token
"x" aborts the whole batch "80,x,82" — no port is processed even though
"80" and "82" would each succeed (as "80,82" shows) — refuting "an
invalid token never aborts processing of the remaining tokens"; and the
Proxy-Config backend's parser rejects the range token "80-85", refuting
range support for that backend. -/
theorem batch_processing_counterexample :
    SocatManager.add_multiple_forwards c5_senv
      (some ⟨"t1", "10.30.30.2", []⟩) "80,x,82" =
      (some ⟨"t1", "10.30.30.2", []⟩, false, "Invalid port format") ∧
    (SocatManager.add_multiple_forwards c5_senv
      (some ⟨"t1", "10.30.30.2", []⟩) "80,82").1 =
      some ⟨"t1", "10.30.30.2", [80, 82]⟩ ∧
    pyInt? "80-85" = none := by
  refine ⟨by decide, by decide, by decide⟩

/-- C5 amended: the Proxy-Config batch operations accept comma-separated
plain port tokens only — a range token such as "80-85" is an invalid
token for them — and process tokens independently: an unparseable token
is reported individually and the state evolution is exactly that of the
remaining tokens.  The Process-Per-Port batch operations additionally
accept inclusive "start-end" ranges, but parse the whole specification
up front: any invalid token aborts the entire batch with "Invalid port
format" before any port is processed. -/
theorem batch_port_processing (env : HAProxyManager.Env)
    (st : HAProxyManager.St) (senv : SocatManager.Env)
    (cfg : Option Tunnel) (rcfg : Tunnel) (s : String)
    (pre post : List String) (tok : String) :
    ((HAProxyManager.add_multiple_forwards env st s).1 =
      (HAProxyManager.split_ports s).foldl
        (HAProxyManager.batch_st_step env) st ∧
     (HAProxyManager.add_multiple_forwards env st s).2.1 = true) ∧
    (pyInt? tok = none →
      (pre ++ tok :: post).foldl (HAProxyManager.batch_st_step env) st =
        (pre ++ post).foldl (HAProxyManager.batch_st_step env) st) ∧
    pyInt? "80-85" = none ∧
    SocatManager.socat_parse_part "80-82" = some [80, 81, 82] ∧
    (SocatManager.socat_parse_part tok = none →
      SocatManager.socat_parse_tokens (pre ++ tok :: post) = none) ∧
    (SocatManager.socat_parse_tokens (SocatManager.socat_tokens s) =
        none →
      SocatManager.add_multiple_forwards senv cfg s =
        (cfg, false, "Invalid port format") ∧
      SocatManager.remove_multiple_forwards senv rcfg s =
        (rcfg, false, "Invalid port format")) := by
  refine ⟨⟨?_, rfl⟩, ?_, by decide, by decide, ?_, ?_⟩
  · show ((HAProxyManager.split_ports s).foldl
      (HAProxyManager.add_multiple_step env)
      { st := st, results := [], active := [], inactive := 0 }).st = _
    rw [HAProxyManager.add_multiple_st_eq]
  · intro htok
    exact HAProxyManager.batch_st_skip_invalid env st pre post tok htok
  · intro htok
    exact SocatManager.socat_parse_tokens_none htok pre post
  · intro hparse
    constructor
    · simp [SocatManager.add_multiple_forwards, hparse]
    · simp [SocatManager.remove_multiple_forwards, hparse]

/-- A Proxy-Config environment for the batch witness. -/
def c5_henv : HAProxyManager.Env :=
  { validator_ok := fun _ => true
    reload_ok := true
    restart_ok := true
    listening := fun _ => false
    port_process := fun _ => none }

/-- A Proxy-Config state for the batch witness. -/
def c5_hst : HAProxyManager.St :=
  { pre := []
    cfg := ⟨"t1", "10.0.0.2", []⟩
    post := []
    fs := { live := none, backup := none } }

/-- C5 witness: the amended claim evaluated at "80,x,82" — the Proxy-
Config fold skips the invalid token "x" and the Process-Per-Port batch
aborts whole. -/
theorem batch_port_processing_witness :
    (["80"] ++ "x" :: ["82"]).foldl
        (HAProxyManager.batch_st_step c5_henv) c5_hst =
      (["80"] ++ ["82"]).foldl
        (HAProxyManager.batch_st_step c5_henv) c5_hst ∧
    SocatManager.add_multiple_forwards c5_senv
        (some ⟨"t9", "10.0.0.9", []⟩) "80,x,82" =
      (some ⟨"t9", "10.0.0.9", []⟩, false, "Invalid port format") := by
  have h := batch_port_processing c5_henv c5_hst c5_senv
    (some ⟨"t9", "10.0.0.9", []⟩) ⟨"t9", "10.0.0.9", []⟩ "80,x,82"
    ["80"] ["82"] "x"
  exact ⟨h.2.1 (by decide), (h.2.2.2.2.2 (by decide)).1⟩

/-! ## Claim C6: relay data-routine buffering -/

/-- C6 counterexample: the relay routine of forward.py
(`ForwardServer._relay_data`, the first routine the claim cites) reads
4096-byte chunks with a 300s idle timeout — not 64KB with 60s — and
drains after every single write: two 10-byte chunks (20 bytes, far below
any 256KB threshold) already cause two drains. -/
theorem relay_flush_counterexample :
    RelayData.relay_read_size = 4096 ∧
    RelayData.relay_read_size ≠ 65536 ∧
    RelayData.relay_read_timeout_s = 300 ∧
    RelayData.relay_read_timeout_s ≠ 60 ∧
    (RelayData.relay_data .clientToRemote [10, 10]).drains = 2 := by
  decide

/-- C6 amended: the optimized relay routine (forward_legacy.py
`_relay_data`) reads up to a 64KB chunk with a 60s idle-read timeout
whose expiry ends the session without a final drain, adds each chunk
length to both the per-session and the per-backend counter of its
direction, and drains only when pending bytes reach the 256KB threshold:
its drain count is bounded by total/256KB plus the one final drain at
EOF, and when total traffic stays below the threshold the only drain is
the final one at EOF (none on timeout).  The forward.py
`ForwardServer._relay_data` routine instead reads 4096-byte chunks with
a 300s timeout and drains after every write — one drain per chunk. -/
theorem relay_data_buffering (chunks : List Nat)
    (ending : RelayData.StreamEnd) :
    RelayData.legacy_read_size = 65536 ∧
    RelayData.legacy_read_timeout_s = 60 ∧
    RelayData.legacy_drain_threshold = 262144 ∧
    ((RelayData.legacy_relay_data .clientToRemote chunks
        ending).session_sent = chunks.sum ∧
     (RelayData.legacy_relay_data .clientToRemote chunks
        ending).stats_sent = chunks.sum ∧
     (RelayData.legacy_relay_data .clientToRemote chunks
        ending).session_received = 0) ∧
    ((RelayData.legacy_relay_data .remoteToClient chunks
        ending).session_received = chunks.sum ∧
     (RelayData.legacy_relay_data .remoteToClient chunks
        ending).stats_received = chunks.sum ∧
     (RelayData.legacy_relay_data .remoteToClient chunks
        ending).session_sent = 0) ∧
    (∀ d, (RelayData.legacy_relay_data d chunks ending).drains ≤
      chunks.sum / RelayData.legacy_drain_threshold + 1) ∧
    (chunks.sum < RelayData.legacy_drain_threshold → 0 < chunks.sum →
      (RelayData.legacy_relay_data .clientToRemote chunks .eof).drains =
        1 ∧
      (RelayData.legacy_relay_data .clientToRemote chunks
        .timeout).drains = 0) ∧
    (∀ d, (RelayData.relay_data d chunks).drains = chunks.length) := by
  obtain ⟨p1, p2, p3, p4⟩ :=
    RelayData.legacy_relay_data_proj .clientToRemote chunks ending
  obtain ⟨q1, q2, q3, q4⟩ :=
    RelayData.legacy_relay_data_proj .remoteToClient chunks ending
  obtain ⟨f1, f2, f3, f4⟩ := RelayData.legacy_fold_counters_ctr chunks
    RelayData.init_acc
  obtain ⟨g1, g2, g3, g4⟩ := RelayData.legacy_fold_counters_rtc chunks
    RelayData.init_acc
  refine ⟨rfl, rfl, rfl, ⟨?_, ?_, ?_⟩, ⟨?_, ?_, ?_⟩, ?_, ?_, ?_⟩
  · rw [p1, f1]
    simp [RelayData.init_acc]
  · rw [p3, f3]
    simp [RelayData.init_acc]
  · rw [p2, f2]
    simp [RelayData.init_acc]
  · rw [q2, g2]
    simp [RelayData.init_acc]
  · rw [q4, g4]
    simp [RelayData.init_acc]
  · rw [q1, g1]
    simp [RelayData.init_acc]
  · intro d
    exact RelayData.legacy_drains_le d chunks ending
  · intro h1 h2
    exact RelayData.legacy_small_traffic .clientToRemote chunks h1 h2
  · intro d
    exact RelayData.relay_drains_eq d chunks

/-- C6 witness: on two 10-byte chunks ending in EOF the optimized
routine counts 20 bytes sent and drains once (only the final drain); the
forward.py routine drains twice. -/
theorem relay_data_buffering_witness :
    (RelayData.legacy_relay_data .clientToRemote [10, 10]
      .eof).session_sent = 20 ∧
    (RelayData.legacy_relay_data .clientToRemote [10, 10] .eof).drains =
      1 ∧
    (RelayData.relay_data .clientToRemote [10, 10]).drains = 2 := by
  have h := relay_data_buffering [10, 10] RelayData.StreamEnd.eof
  refine ⟨?_, (h.2.2.2.2.2.2.1 (by decide) (by decide)).1, ?_⟩
  · rw [h.2.2.2.1.1]
    decide
  · rw [h.2.2.2.2.2.2.2 RelayData.Direction.clientToRemote]
    decide

end VortexL2
